import Mathlib

/-!
Verification of the graph-transformer core of the `scholar-capital`
repository (`src/lib/utils/graph-transformer.ts`, plus the incremental
link-application loop of `ScholarGraph`).

The TypeScript source is shallowly embedded: JS strings are `String`,
JS `undefined`-able fields are `Option`, JS numbers are `ℝ` (with the
32-bit hash kept in `ℕ` and reduced mod 2^32 exactly as `>>> 0` does),
and a JS number that may be `NaN` is `Option ℤ` (`none` = `NaN`).
Functions that can throw a `TypeError` (dereferencing a missing field)
return `Except String _`.
-/

namespace Scholar

/-! ## JS primitive semantics -/

/-- Prefix test on character lists; `listIsPrefix p s` holds iff `p` is a
prefix of `s`.  Used to model `String.prototype.startsWith`. -/
def listIsPrefix : List Char → List Char → Bool
  | [], _ => true
  | _ :: _, [] => false
  | a :: as, b :: bs => a = b && listIsPrefix as bs

/-- JS `s.startsWith(pre)`: `pre` is a prefix of the character sequence
of `s`. -/
def jsStartsWith (s pre : String) : Bool := listIsPrefix pre.data s.data

/-- JS `s.replace(/,/g, '')`: remove every comma. -/
def stripCommas (s : String) : String := ⟨s.data.filter (fun c => c ≠ ',')⟩

/-- Numeric value of a list of decimal digit characters. -/
def digitsToNat (ds : List Char) : ℕ :=
  ds.foldl (fun a c => 10 * a + (c.toNat - '0'.toNat)) 0

/-- JS `parseInt(s, 10)`: skip leading whitespace, optional sign, then the
longest prefix of decimal digits; `NaN` (here `none`) if that prefix is
empty. -/
def parseIntJS (s : String) : Option ℤ :=
  let cs := s.data.dropWhile (fun c => c.isWhitespace)
  let signAndRest : ℤ × List Char :=
    match cs with
    | '-' :: rest => (-1, rest)
    | '+' :: rest => (1, rest)
    | _ => (1, cs)
  let ds := signAndRest.2.takeWhile (fun c => c.isDigit)
  if ds.isEmpty then none else some (signAndRest.1 * (digitsToNat ds : ℤ))

/-- JS `a || b` for an optional string `a` and string `b`
(the empty string is falsy). -/
def jsOrStr (a : Option String) (b : String) : String :=
  match a with
  | some s => if s = "" then b else s
  | none => b

/-- JS `a || b` where both sides are optional strings. -/
def jsOrOpt (a b : Option String) : Option String :=
  match a with
  | some s => if s = "" then b else some s
  | none => b

/-- Truthiness of an optional string (`undefined` and `""` are falsy). -/
def jsTruthyStr : Option String → Bool
  | some s => s ≠ ""
  | none => false

/-- Truthiness of an optional integer (`undefined` and `0` are falsy). -/
def jsTruthyInt : Option ℤ → Bool
  | some t => t ≠ 0
  | none => false

/-- Interpolating a possibly-`undefined` string into a template literal
(`undefined` prints as `"undefined"`). -/
def tmplStr : Option String → String
  | some s => s
  | none => "undefined"

/-- A JSON field that is either a string or a number. -/
inductive StrOrNum
  | str (s : String)
  | num (n : ℤ)
deriving DecidableEq

/-- JS `.toString()` on a string-or-number field. -/
def yearToString : StrOrNum → String
  | .str s => s
  | .num n => toString n

/-! ## Payload data model (`src/lib/types/scholar.ts`) -/

/-- Entry of a structured `authors` array on an article. -/
structure AuthorRef where
  name : String
  id : Option String := none
  author_id : Option String := none
  link : Option String := none
deriving DecidableEq

/-- The `authors` field of an article: structured list or flat string. -/
inductive AuthorsField
  | str (s : String)
  | list (l : List AuthorRef)
deriving DecidableEq

/-- `cited_by` on an article (legacy shape). -/
structure CitedByInfo where
  value : Option StrOrNum := none
  total : Option ℤ := none
  cites_id : Option String := none
deriving DecidableEq

/-- `inline_links.cited_by` on an article. -/
structure InlineCitedBy where
  total : Option ℤ := none
  cites_id : Option String := none
deriving DecidableEq

/-- `inline_links` on an article. -/
structure InlineLinks where
  cited_by : Option InlineCitedBy := none
deriving DecidableEq

/-- An article of an author payload (union of the `ScholarArticle` and
`AuthorArticle` fields the transformer reads). -/
structure Article where
  title : String
  citation_id : Option String := none
  id : Option String := none
  link : Option String := none
  title_link : Option String := none
  authors : Option AuthorsField := none
  publication : Option String := none
  year : Option StrOrNum := none
  cited_by : Option CitedByInfo := none
  inline_links : Option InlineLinks := none
  data_cid : Option String := none
deriving DecidableEq

/-- The `author` object of an author payload. -/
structure ScholarAuthor where
  name : String
  author_id : Option String := none
  affiliations : Option String := none
  thumbnail : Option String := none
deriving DecidableEq

/-- A co-author entry of an author payload. -/
structure CoAuthor where
  name : String
  author_id : String
  link : String
  affiliations : Option String := none
  thumbnail : Option String := none
deriving DecidableEq

/-- `search_parameters` echoed back on the payload. -/
structure SearchParameters where
  author_id : Option String := none
  hl : Option String := none
deriving DecidableEq

/-- The author payload (`ScholarAuthorResponse`); `author` and `articles`
are optional, exactly as in the TypeScript type. -/
structure ScholarAuthorResponse where
  search_parameters : Option SearchParameters := none
  author : Option ScholarAuthor := none
  articles : Option (List Article) := none
  co_authors : Option (List CoAuthor) := none
deriving DecidableEq

/-! ## Derived ids and citation-count extraction -/

/-- `paper-${article.citation_id || article.id || article.title}`. -/
def paperKey (a : Article) : String :=
  jsOrStr a.citation_id (jsOrStr a.id a.title)

/-- The derived paper node id. -/
def paperIdOf (a : Article) : String := "paper-" ++ paperKey a

/-- A JS number that may be `NaN` (`none` = `NaN`). -/
abbrev JSInt := Option ℤ

/-- Citation-count extraction of `transformAuthorToGraph`,
`addResearcherToGraph` and `updateResearcherPapers`
(graph-transformer.ts lines 95–107): try `inline_links.cited_by.total`
(truthy test), then `cited_by.total` (truthy test), then
`cited_by.value` (string with commas removed via `parseInt`, or number
as-is); the initial value is `0`. -/
def extractCitationCount (a : Article) : JSInt :=
  let ilTotal := (a.inline_links.bind InlineLinks.cited_by).bind InlineCitedBy.total
  let cbTotal := a.cited_by.bind CitedByInfo.total
  if jsTruthyInt ilTotal then ilTotal
  else if jsTruthyInt cbTotal then cbTotal
  else
    match a.cited_by.bind CitedByInfo.value with
    | none => some 0
    | some (.str s) => parseIntJS (stripCommas s)
    | some (.num n) => some n

/-- Citation-count extraction of `addMorePapers`
(graph-transformer.ts lines 258–265): only `cited_by.value` is
consulted. -/
def extractCitationCountValueOnly (a : Article) : JSInt :=
  match a.cited_by.bind CitedByInfo.value with
  | none => some 0
  | some (.str s) => parseIntJS (stripCommas s)
  | some (.num n) => some n

/-! ## Deterministic spatial placement (graph-transformer.ts lines 18–56) -/

/-- The 32-bit string hash: `hash = (hash * 31 + charCode) >>> 0` over the
characters of the seed (`>>> 0` reduces mod 2^32; the multiply-add is exact
in a 64-bit float for 32-bit inputs). -/
def hashString (seed : String) : ℕ :=
  seed.data.foldl (fun h c => (h * 31 + c.toNat) % 4294967296) 0

/-- JS `Math.round`: round half toward positive infinity. -/
noncomputable def jsRound (x : ℝ) : ℝ := (⌊x + 1 / 2⌋ : ℤ)

/-- JS `Math.atan2 y x` (the argument of the point `(x, y)`). -/
noncomputable def jsAtan2 (y x : ℝ) : ℝ := Complex.arg ⟨x, y⟩

/-- Return value of `generateRadialPosition`. -/
structure RadialPosition where
  angle : ℝ
  distance : ℝ
  x : ℝ
  y : ℝ

/-- `generateRadialPosition(seed, index, totalNodes, center, viewportWidth,
viewportHeight)`.  The source defaults are `center = (0,0)`,
`viewportWidth = 1200`, `viewportHeight = 800`; callers here always pass
them explicitly.  `totalNodes` is accepted but never read, as in the
source. -/
noncomputable def generateRadialPosition (seed : String) (index : ℕ) (totalNodes : ℕ)
    (center : ℝ × ℝ) (viewportWidth : ℝ) (viewportHeight : ℝ) : RadialPosition :=
  let hash := hashString seed
  let goldenAngle : ℝ := 2.399963229728653
  let baseAngle : ℝ := (index : ℝ) * goldenAngle
  let angleVariation : ℝ := ((hash : ℝ) / 4294967295 * 0.5 - 0.25) * Real.pi / 6
  let angle := baseAngle + angleVariation
  let maxSafeDistance : ℝ := min viewportWidth viewportHeight * 0.35
  let distanceRatio : ℝ := (hash : ℝ) / 4294967295
  let distance := maxSafeDistance * 0.85 + distanceRatio * maxSafeDistance * 0.15
  { angle := angle
    distance := jsRound distance
    x := center.1 + Real.cos angle * distance
    y := center.2 + Real.sin angle * distance }

/-- `generateRadialPosition` at the source's default arguments (used by
`transformAuthorToGraph` and `addMorePapers`). -/
noncomputable def generateRadialPositionDefault (seed : String) (index : ℕ)
    (totalNodes : ℕ) : RadialPosition :=
  generateRadialPosition seed index totalNodes (0, 0) 1200 800

/-! ## Node sizes -/

/-- Paper node size of `transformAuthorToGraph`, `addResearcherToGraph` and
`updateResearcherPapers`: `Math.min(10, 5 + Math.log10(cc) * 1.5)` when
`cc > 0`, else `5` (`NaN > 0` is false). -/
noncomputable def nodeSizeSmall : JSInt → ℝ
  | some n => if 0 < n then min 10 (5 + Real.logb 10 (n : ℝ) * 1.5) else 5
  | none => 5

/-- Paper node size of `addMorePapers`:
`Math.min(20, 8 + Math.log10(cc) * 3)` when `cc > 0`, else `8`. -/
noncomputable def nodeSizeLarge : JSInt → ℝ
  | some n => if 0 < n then min 20 (8 + Real.logb 10 (n : ℝ) * 3) else 8
  | none => 8

/-! ## Graph data model (`src/lib/types/graph.ts`) -/

inductive NodeType
  | researcher
  | paper
  | coauthor
deriving DecidableEq

inductive LinkType
  | authored
  | coauthored
  | cited
deriving DecidableEq

/-- The open metadata bag of a graph node; absent fields are `none`. -/
structure Metadata where
  citationCount : Option JSInt := none
  year : Option String := none
  link : Option String := none
  affiliations : Option String := none
  thumbnail : Option String := none
  authorId : Option String := none
  expanded : Option Bool := none
  venue : Option String := none
  authors : Option (List AuthorRef) := none
  data_cid : Option String := none
  citation_id : Option String := none
  cites_id : Option String := none
  layoutDistance : Option ℝ := none
  initialAngle : Option ℝ := none
  loading : Option Bool := none

structure GraphNode where
  id : String
  name : String
  type : NodeType
  val : ℝ
  color : String
  x : Option ℝ := none
  y : Option ℝ := none
  metadata : Option Metadata := none

structure GraphLink where
  source : String
  target : String
  type : LinkType
  value : Option ℝ := none

structure GraphData where
  nodes : List GraphNode
  links : List GraphLink

/-- A junk node used to model out-of-range JS array indexing; every indexed
access in the embedded code is within bounds on the executed paths. -/
def dummyNode : GraphNode :=
  { id := "", name := "", type := .paper, val := 0, color := "" }

/-! ## `transformAuthorToGraph` (graph-transformer.ts lines 61–195) -/

/-- The researcher profile link template of lines 84, 358 and 609. -/
def authorProfileLink (author : ScholarAuthor) (sp : Option SearchParameters) : String :=
  "https://scholar.google.com/citations?user=" ++
    tmplStr (jsOrOpt author.author_id (sp.bind SearchParameters.author_id)) ++
    "&hl=" ++ jsOrStr (sp.bind SearchParameters.hl) "en"

/-- Normalisation of the `authors` field in `transformAuthorToGraph`
(lines 115–126): a structured array is mapped (`id: author.id ||
author.author_id`); a flat string is split on `" - "` to drop the venue
tail, then on commas, each name trimmed; anything else gives `[]`. -/
def extractAuthorsList : Option AuthorsField → List AuthorRef
  | some (.list l) =>
      l.map fun a => { name := a.name, id := jsOrOpt a.id a.author_id, link := a.link }
  | some (.str s) =>
      ((s.splitOn " - ").headD "").splitOn "," |>.map fun name =>
        { name := name.trim }
  | none => []

/-- The central researcher node of `transformAuthorToGraph` (lines 74–86). -/
def transformResearcherNode (author : ScholarAuthor) (sp : Option SearchParameters) :
    GraphNode :=
  { id := "researcher-" ++ author.name
    name := author.name
    type := .researcher
    val := 12
    color := "#134074"
    metadata := some
      { affiliations := author.affiliations
        thumbnail := author.thumbnail
        link := some (authorProfileLink author sp) } }

/-- One paper node of `transformAuthorToGraph` (lines 92–153). -/
noncomputable def transformPaperNode (article : Article) (index : ℕ) (total : ℕ) :
    GraphNode :=
  let pid := paperIdOf article
  let citationCount := extractCitationCount article
  let radialPos := generateRadialPositionDefault pid index total
  { id := pid
    name := article.title
    type := .paper
    val := nodeSizeSmall citationCount
    color := "#13315c"
    x := some radialPos.x
    y := some radialPos.y
    metadata := some
      { citationCount := some citationCount
        year := article.year.map yearToString
        link := jsOrOpt article.link article.title_link
        venue := article.publication
        authors := some (extractAuthorsList article.authors)
        data_cid := article.data_cid
        citation_id := article.citation_id
        cites_id := jsOrOpt
          ((article.inline_links.bind InlineLinks.cited_by).bind InlineCitedBy.cites_id)
          (article.cited_by.bind CitedByInfo.cites_id)
        expanded := some false
        layoutDistance := some radialPos.distance
        initialAngle := some radialPos.angle } }

/-- One co-author node of `transformAuthorToGraph` (lines 168–182). -/
def transformCoAuthorNode (c : CoAuthor) : GraphNode :=
  { id := "coauthor-" ++ c.author_id
    name := c.name
    type := .coauthor
    val := 8
    color := "#8da9c4"
    metadata := some
      { affiliations := c.affiliations
        authorId := some c.author_id
        link := some c.link } }

/-- `transformAuthorToGraph(data, { maxPapers, includeCoAuthors })`.
The source dereferences `data.author.name` (line 74) and
`data.articles.slice` (line 90) without a guard, so a payload missing
either field throws a `TypeError`, modelled as `Except.error`. -/
noncomputable def transformAuthorToGraph (data : ScholarAuthorResponse)
    (maxPapers : ℕ) (includeCoAuthors : Bool) : Except String GraphData :=
  match data.author with
  | none => .error "TypeError: Cannot read properties of undefined (reading name)"
  | some author =>
    match data.articles with
    | none => .error "TypeError: Cannot read properties of undefined (reading slice)"
    | some articles =>
      let researcherId := "researcher-" ++ author.name
      let papers := articles.take maxPapers
      let paperNodes := papers.enum.map fun p =>
        transformPaperNode p.2 p.1 papers.length
      let paperLinks : List GraphLink := papers.map fun a =>
        { source := researcherId, target := paperIdOf a, type := .authored, value := some 2 }
      let coAuthorsToShow :=
        if includeCoAuthors then
          match data.co_authors with
          | some cs => cs.take 10
          | none => []
        else []
      let coNodes := coAuthorsToShow.map transformCoAuthorNode
      let coLinks : List GraphLink := coAuthorsToShow.map fun c =>
        { source := researcherId, target := "coauthor-" ++ c.author_id,
          type := .coauthored, value := some 1 }
      .ok
        { nodes := transformResearcherNode author data.search_parameters ::
            (paperNodes ++ coNodes)
          links := paperLinks ++ coLinks }

/-! ## `addMorePapers` (graph-transformer.ts lines 245–304) -/

/-- Body of the `additionalPapers.forEach` loop of `addMorePapers`: skip if
a node with the derived id exists, otherwise push a (large-size) paper
node and an `authored` link.  `totalAdditional` is
`additionalPapers.length`, read for the radial total. -/
noncomputable def addMorePapersStep (researcherId : String) (totalAdditional : ℕ)
    (st : GraphData) (article : Article) : GraphData :=
  let pid := paperIdOf article
  if (st.nodes.find? (fun n => n.id = pid)).isSome then st
  else
    let citationCount := extractCitationCountValueOnly article
    let currentPaperCount := (st.nodes.filter fun n => n.type = NodeType.paper).length
    let radialPos := generateRadialPositionDefault pid currentPaperCount
      (totalAdditional + currentPaperCount)
    { nodes := st.nodes ++
        [{ id := pid
           name := article.title
           type := .paper
           val := nodeSizeLarge citationCount
           color := "#10b981"
           x := some radialPos.x
           y := some radialPos.y
           metadata := some
             { citationCount := some citationCount
               year := article.year.map yearToString
               link := jsOrOpt article.link article.title_link
               expanded := some false
               layoutDistance := some radialPos.distance
               initialAngle := some radialPos.angle } }]
      links := st.links ++
        [{ source := researcherId, target := pid, type := .authored, value := some 2 }] }

/-- `addMorePapers(currentGraph, researcherId, additionalPapers)`. -/
noncomputable def addMorePapers (g : GraphData) (researcherId : String)
    (additionalPapers : List Article) : GraphData :=
  additionalPapers.foldl (addMorePapersStep researcherId additionalPapers.length) g

/-! ## `addResearcherToGraph` (graph-transformer.ts lines 310–468) -/

/-- Step 1 of `addResearcherToGraph`: position of the new researcher,
extending the source paper's vector from the origin by 600 units, with
fallbacks `(800, 0)` (source id given but node or its position missing)
and `(0, 0)` (no source id). -/
noncomputable def researcherPlacement (nodes : List GraphNode)
    (sourcePaperId : Option String) : ℝ × ℝ :=
  if jsTruthyStr sourcePaperId then
    match nodes.find? (fun n => n.id = sourcePaperId.getD "") with
    | some sourceNode =>
      match sourceNode.x, sourceNode.y with
      | some sx, some sy =>
        let angle := jsAtan2 sy sx
        (sx + Real.cos angle * 600, sy + Real.sin angle * 600)
      | some _, none => (800, 0)
      | none, _ => (800, 0)
    | none => (800, 0)
  else (0, 0)

/-- The researcher-node upsert shared by `addResearcherToGraph`
(lines 346–361) and `addResearcherPlaceholders` (lines 515–528): push the
node only when no node with its id exists. -/
def upsertNodeById (nodes : List GraphNode) (rn : GraphNode) : List GraphNode :=
  if (nodes.find? (fun n => n.id = rn.id)).isSome then nodes else nodes ++ [rn]

/-- The idempotent source-paper link push shared by `addResearcherToGraph`
(lines 364–379) and `addResearcherPlaceholders` (lines 531–545): when a
source paper id is given (truthy), add `researcher → sourcePaper` unless
a link between the two exists in either orientation. -/
def pushSourceLinkIfMissing (links : List GraphLink) (researcherId : String)
    (sourcePaperId : Option String) : List GraphLink :=
  if jsTruthyStr sourcePaperId then
    let spid := sourcePaperId.getD ""
    let linkExists := links.any fun l =>
      (l.source = researcherId && l.target = spid) ||
      (l.source = spid && l.target = researcherId)
    if linkExists then links
    else links ++
      [{ source := researcherId, target := spid, type := .authored, value := some 2 }]
  else links

/-- `authors` normalisation of `addResearcherToGraph` (lines 432–434):
only the flat-string shape is handled, split on commas (no venue-tail
drop), otherwise `[]`. -/
def authorsFromCommaString : Option AuthorsField → List AuthorRef
  | some (.str s) => (s.splitOn ",").map fun name => { name := name.trim }
  | some (.list _) => []
  | none => []

/-- Body of the paper loop of `addResearcherToGraph` (lines 384–465):
skip the source paper; if the derived id is new, push a paper node
(radially placed around the researcher) and an `authored` link; if it
already exists, add the researcher link only if no link between the two
ids exists in either orientation. -/
noncomputable def addResearcherPaperStep (researcherId : String)
    (researcherPos : ℝ × ℝ) (papersTotal : ℕ) (sourcePaperId : Option String)
    (st : GraphData) (p : ℕ × Article) : GraphData :=
  let pid := paperIdOf p.2
  if sourcePaperId = some pid then st
  else if (st.nodes.find? (fun n => n.id = pid)).isSome then
    let linkExists := st.links.any fun l =>
      (l.source = researcherId && l.target = pid) ||
      (l.source = pid && l.target = researcherId)
    if linkExists then st
    else { st with links := st.links ++
      [{ source := researcherId, target := pid, type := .authored, value := some 2 }] }
  else
    let citationCount := extractCitationCount p.2
    let radialPos := generateRadialPosition pid p.1 papersTotal researcherPos 1200 800
    { nodes := st.nodes ++
        [{ id := pid
           name := p.2.title
           type := .paper
           val := nodeSizeSmall citationCount
           color := "#13315c"
           x := some radialPos.x
           y := some radialPos.y
           metadata := some
             { citationCount := some citationCount
               year := p.2.year.map yearToString
               link := jsOrOpt p.2.link p.2.title_link
               venue := p.2.publication
               authors := some (authorsFromCommaString p.2.authors)
               citation_id := p.2.citation_id
               expanded := some false
               layoutDistance := some radialPos.distance
               initialAngle := some radialPos.angle } }]
      links := st.links ++
        [{ source := researcherId, target := pid, type := .authored, value := some 2 }] }

/-- `addResearcherToGraph(currentGraph, researcherData, sourcePaperId,
{ maxPapers })`.  The source dereferences `researcherData.author.name`
(line 343) and `researcherData.articles.slice` (line 382) without a
guard; either missing field throws, modelled as `Except.error` (the
throw discards all partial mutation, so the check is hoisted). -/
noncomputable def addResearcherToGraph (g : GraphData)
    (researcherData : ScholarAuthorResponse) (sourcePaperId : Option String)
    (maxPapers : ℕ) : Except String GraphData :=
  match researcherData.author with
  | none => .error "TypeError: Cannot read properties of undefined (reading name)"
  | some author =>
  match researcherData.articles with
  | none => .error "TypeError: Cannot read properties of undefined (reading slice)"
  | some articles =>
    let researcherPos := researcherPlacement g.nodes sourcePaperId
    let researcherId := "researcher-" ++ author.name
    let nodes1 := upsertNodeById g.nodes
      { id := researcherId
        name := author.name
        type := .researcher
        val := 12
        color := "#134074"
        x := some researcherPos.1
        y := some researcherPos.2
        metadata := some
          { affiliations := author.affiliations
            thumbnail := author.thumbnail
            link := some (authorProfileLink author researcherData.search_parameters) } }
    let links1 := pushSourceLinkIfMissing g.links researcherId sourcePaperId
    let papers := articles.take maxPapers
    .ok (papers.enum.foldl
      (addResearcherPaperStep researcherId researcherPos papers.length sourcePaperId)
      { nodes := nodes1, links := links1 })

/-! ## `addResearcherPlaceholders` (graph-transformer.ts lines 473–583) -/

/-- Step 1 of `addResearcherPlaceholders`: researcher position, rotated by
`(neighborCount + 1) * π/3` from the source paper's angle, where
`neighborCount` counts links between the source paper and any
`researcher-` id. -/
noncomputable def placeholdersPlacement (g : GraphData)
    (sourcePaperId : Option String) : ℝ × ℝ :=
  if jsTruthyStr sourcePaperId then
    let spid := sourcePaperId.getD ""
    match g.nodes.find? (fun n => n.id = spid) with
    | some sourceNode =>
      match sourceNode.x, sourceNode.y with
      | some sx, some sy =>
        let existingResearcherLinks := g.links.filter fun l =>
          (l.source = spid && jsStartsWith l.target "researcher-") ||
          (l.target = spid && jsStartsWith l.source "researcher-")
        let neighborCount := existingResearcherLinks.length
        let baseAngle := jsAtan2 sy sx
        let angleOffset := ((neighborCount : ℝ) + 1) * (Real.pi / 3)
        let angle := baseAngle + angleOffset
        (sx + Real.cos angle * 600, sy + Real.sin angle * 600)
      | some _, none => (800, 0)
      | none, _ => (800, 0)
    | none => (800, 0)
  else (0, 0)

/-- The id of the `i`-th placeholder for a researcher name. -/
def placeholderIdOf (researcherName : String) (i : ℕ) : String :=
  "placeholder-" ++ researcherName ++ "-" ++ toString i

/-- One placeholder paper node (lines 548–573). -/
noncomputable def placeholderNodeOf (researcherName : String) (i : ℕ) (count : ℕ)
    (researcherPos : ℝ × ℝ) : GraphNode :=
  let placeholderId := placeholderIdOf researcherName i
  let radialPos := generateRadialPosition placeholderId i count researcherPos 1200 800
  { id := placeholderId
    name := "Loading..."
    type := .paper
    val := 5
    color := "#e5e7eb"
    x := some radialPos.x
    y := some radialPos.y
    metadata := some
      { loading := some true
        expanded := some false
        layoutDistance := some radialPos.distance
        initialAngle := some radialPos.angle } }

/-- `addResearcherPlaceholders(currentGraph, researcherName, sourcePaperId,
count)`: add (or reuse) the researcher node, idempotently link it to the
source paper, then append `count` placeholder nodes with their links. -/
noncomputable def addResearcherPlaceholders (g : GraphData) (researcherName : String)
    (sourcePaperId : Option String) (count : ℕ) : GraphData :=
  let researcherPos := placeholdersPlacement g sourcePaperId
  let researcherId := "researcher-" ++ researcherName
  let nodes1 := upsertNodeById g.nodes
    { id := researcherId
      name := researcherName
      type := .researcher
      val := 12
      color := "#134074"
      x := some researcherPos.1
      y := some researcherPos.2
      metadata := some { loading := some true } }
  let links1 := pushSourceLinkIfMissing g.links researcherId sourcePaperId
  { nodes := nodes1 ++
      (List.range count).map fun i => placeholderNodeOf researcherName i count researcherPos
    links := links1 ++
      (List.range count).map fun i =>
        { source := researcherId, target := placeholderIdOf researcherName i,
          type := .authored, value := some 1 } }

/-! ## `updateResearcherPapers` (graph-transformer.ts lines 589–707) -/

/-- Step 1 of `updateResearcherPapers` (lines 601–613): refresh the
researcher node's metadata (spread of the old bag with `affiliations`,
`thumbnail`, `link` and `loading: false` overwritten); id and position
are untouched. -/
def refreshResearcherNode (n : GraphNode) (author : ScholarAuthor)
    (sp : Option SearchParameters) : GraphNode :=
  let base : Metadata := n.metadata.getD {}
  { n with
      metadata := some
        { base with
            affiliations := author.affiliations
            thumbnail := author.thumbnail
            link := some (authorProfileLink author sp)
            loading := some false } }

/-- Indices of the nodes whose id starts with the placeholder marker, in
increasing order (lines 617–619; the source maps each node to its index
or `-1` and filters out the `-1`s, which yields exactly the indices `i`
of the node list whose node's id starts with the marker, in increasing
order). -/
def placeholderIndicesOf (nodes : List GraphNode) (marker : String) : List ℕ :=
  (List.range nodes.length).filter fun i =>
    jsStartsWith (nodes.getD i dummyNode).id marker

/-- `authors` normalisation of `updateResearcherPapers` (line 662): only
the structured-array shape is handled (simplified mapping, no
`author_id` fallback), otherwise `[]`. -/
def authorsSimplified : Option AuthorsField → List AuthorRef
  | some (.list l) => l.map fun a => { name := a.name, id := a.id }
  | some (.str _) => []
  | none => []

/-- The real paper node replacing a placeholder (lines 649–669): it keeps
the placeholder's `x`, `y`, `layoutDistance` and `initialAngle`. -/
noncomputable def realPaperNode (article : Article) (placeholderNode : GraphNode) :
    GraphNode :=
  let citationCount := extractCitationCount article
  { id := paperIdOf article
    name := article.title
    type := .paper
    val := nodeSizeSmall citationCount
    color := "#13315c"
    x := placeholderNode.x
    y := placeholderNode.y
    metadata := some
      { citationCount := some citationCount
        year := article.year.map yearToString
        link := jsOrOpt article.link article.title_link
        venue := article.publication
        authors := some (authorsSimplified article.authors)
        data_cid := article.data_cid
        citation_id := article.citation_id
        expanded := some false
        layoutDistance := placeholderNode.metadata.bind Metadata.layoutDistance
        initialAngle := placeholderNode.metadata.bind Metadata.initialAngle } }

/-- Rewrite one link endpoint-wise from `oldId` to `newId`
(lines 676–683). -/
def rewriteLink (oldId newId : String) (l : GraphLink) : GraphLink :=
  { l with
      source := if l.source = oldId then newId else l.source
      target := if l.target = oldId then newId else l.target }

/-- The placeholder-replacement loop (lines 623–685): for each
`(article, index)` pair, replace the node at `index` and rewrite every
link referencing its old id to the new paper id. -/
noncomputable def updReplacePass :
    List GraphNode → List GraphLink → List (Article × ℕ) →
      List GraphNode × List GraphLink
  | nodes, links, [] => (nodes, links)
  | nodes, links, (article, index) :: rest =>
    let placeholderNode := nodes.getD index dummyNode
    updReplacePass (nodes.set index (realPaperNode article placeholderNode))
      (links.map (rewriteLink placeholderNode.id (paperIdOf article))) rest

/-- The surplus-placeholder removal loop (lines 688–704): splice out each
index (visited in descending order) and drop every link whose source or
target is the removed node's id. -/
def updRemovePass :
    List GraphNode → List GraphLink → List ℕ → List GraphNode × List GraphLink
  | nodes, links, [] => (nodes, links)
  | nodes, links, idx :: rest =>
    let nodeIdToRemove := (nodes.getD idx dummyNode).id
    updRemovePass (nodes.eraseIdx idx)
      (links.filter fun l =>
        !(l.source = nodeIdToRemove || l.target = nodeIdToRemove)) rest

/-- A junk article used to state positional facts with `List.getD`; every
indexed access in the embedded code is within bounds on the executed
paths. -/
def dummyArticle : Article := { title := "" }

/-- The id-rewrite applied to a single endpoint string by the whole
replacement loop: each `(article, index)` pair in order rewrites the old
placeholder id (the id of the node at `index` in the pre-loop node list)
to the new paper id. -/
def strRewriteChain (nodes : List GraphNode) (pairs : List (Article × ℕ)) (s : String) :
    String :=
  pairs.foldl
    (fun s' pr => if s' = (nodes.getD pr.2 dummyNode).id then paperIdOf pr.1 else s') s

/-- The cumulative link rewrite of the replacement loop. -/
def rewriteChain (nodes : List GraphNode) (pairs : List (Article × ℕ)) (l : GraphLink) :
    GraphLink :=
  pairs.foldl
    (fun l' pr => rewriteLink ((nodes.getD pr.2 dummyNode).id) (paperIdOf pr.1) l') l

/-- Steps 2–3 of `updateResearcherPapers` (lines 615–706), applied to the
node list left by the researcher refresh: find the placeholder indices,
positionally replace `min(R, P)` of them (id-swapping the links), then
remove the surplus placeholders in descending index order together with
their links. -/
noncomputable def updatePipeline (nodes1 : List GraphNode) (links : List GraphLink)
    (arts : List Article) (researcherName : String) : GraphData :=
  let marker := "placeholder-" ++ researcherName ++ "-"
  let phIdx := placeholderIndicesOf nodes1 marker
  let papers := arts.take phIdx.length
  let replaced := updReplacePass nodes1 links (papers.zip phIdx)
  let indicesToRemove := (phIdx.drop papers.length).mergeSort fun a b => decide (b ≤ a)
  let removed := updRemovePass replaced.1 replaced.2 indicesToRemove
  { nodes := removed.1, links := removed.2 }

/-- `updateResearcherPapers(currentGraph, researcherData,
placeholderResearcherName)`.  `researcherName` is
`placeholderResearcherName || researcherData.author.name` (short-
circuit: the author is only dereferenced when the override is falsy, or
when the researcher node is found and its metadata is refreshed);
`researcherData.articles.slice` (line 621) throws when `articles` is
missing. -/
noncomputable def updateResearcherPapers (g : GraphData)
    (researcherData : ScholarAuthorResponse)
    (placeholderResearcherName : Option String) : Except String GraphData :=
  let nameE : Except String String :=
    if jsTruthyStr placeholderResearcherName then
      .ok (placeholderResearcherName.getD "")
    else
      match researcherData.author with
      | some a => .ok a.name
      | none => .error "TypeError: Cannot read properties of undefined (reading name)"
  match nameE with
  | .error e => .error e
  | .ok researcherName =>
    let researcherId := "researcher-" ++ researcherName
    let nodes1E : Except String (List GraphNode) :=
      match g.nodes.findIdx? (fun n => n.id = researcherId) with
      | some i =>
        match researcherData.author with
        | some a => .ok (g.nodes.set i
            (refreshResearcherNode (g.nodes.getD i dummyNode) a
              researcherData.search_parameters))
        | none =>
          .error "TypeError: Cannot read properties of undefined (reading affiliations)"
      | none => .ok g.nodes
    match nodes1E with
    | .error e => .error e
    | .ok nodes1 =>
      match researcherData.articles with
      | none => .error "TypeError: Cannot read properties of undefined (reading slice)"
      | some articles => .ok (updatePipeline nodes1 g.links articles researcherName)

/-! ## Incremental link application of the renderer
(`ScholarGraph`, the `addedLinks.forEach` of the generic-update branch):
an edge element keyed `"source-target"` is added only when no element
with that id exists. -/

/-- The renderer's edge element id for a link. -/
def linkKeyOf (l : GraphLink) : String := l.source ++ "-" ++ l.target

/-- Applying `addedLinks` to the set of existing element ids. -/
def applyAddedLinks (elementIds : List String) (addedLinks : List GraphLink) :
    List String :=
  addedLinks.foldl
    (fun es l => if linkKeyOf l ∈ es then es else es ++ [linkKeyOf l]) elementIds

/-! ## Spec-level graph predicates -/

/-- The node ids of a graph, in order. -/
def idsOf (g : GraphData) : List String := g.nodes.map GraphNode.id

/-- Pairwise-distinct node ids. -/
def NodupIds (g : GraphData) : Prop := (idsOf g).Nodup

/-- No dangling edge: every link endpoint is the id of some node. -/
def NoDangling (g : GraphData) : Prop :=
  ∀ l ∈ g.links, l.source ∈ idsOf g ∧ l.target ∈ idsOf g

/-- Number of links between two ids, in either orientation. -/
def edgeCountBetween (links : List GraphLink) (a b : String) : ℕ :=
  (links.filter fun l =>
    (l.source = a && l.target = b) || (l.source = b && l.target = a)).length

/-- A one-researcher graph used as a concrete test fixture. -/
def witnessGraph : GraphData :=
  { nodes := [{ id := "researcher-A", name := "A", type := .researcher, val := 12,
                color := "#134074" }]
    links := [] }

/-- A fixture graph holding researcher X and two of its placeholders, each
linked to the researcher. -/
def phGraph : GraphData :=
  { nodes := [{ id := "researcher-X", name := "X", type := .researcher, val := 12,
                color := "#134074" },
              { id := "placeholder-X-0", name := "Loading...", type := .paper,
                val := 5, color := "#8da9c4" },
              { id := "placeholder-X-1", name := "Loading...", type := .paper,
                val := 5, color := "#8da9c4" }]
    links := [{ source := "researcher-X", target := "placeholder-X-0",
                type := .authored },
              { source := "researcher-X", target := "placeholder-X-1",
                type := .authored }] }

/-- A one-article payload for researcher X. -/
def phData : ScholarAuthorResponse :=
  { author := some { name := "X" }, articles := some [{ title := "T" }] }

/-- The article list of `phData`. -/
def phArts : List Article := [{ title := "T" }]

/-- The graph produced by updating researcher X's papers on `phGraph`. -/
noncomputable def phResult : GraphData :=
  (updateResearcherPapers phGraph phData (some "X")).toOption.getD
    { nodes := [], links := [] }

/-- Like `phGraph`, but the only link ties the matched placeholder to the
surplus placeholder. -/
def cxGraph : GraphData :=
  { nodes := phGraph.nodes
    links := [{ source := "placeholder-X-0", target := "placeholder-X-1",
                type := .authored }] }

/-! # Theorems -/

/-! ## Supporting lemmas: strings -/

theorem listIsPrefix_self_append (p z : List Char) : listIsPrefix p (p ++ z) = true := by
  induction p with
  | nil => rfl
  | cons a as ih => simp [listIsPrefix, ih]

theorem jsStartsWith_self_append (p z : String) : jsStartsWith (p ++ z) p = true := by
  simp only [jsStartsWith, String.data_append]
  exact listIsPrefix_self_append _ _

theorem paper_id_not_marker (x t : String) :
    jsStartsWith ("paper-" ++ x) ("placeholder-" ++ t) = false := by
  simp only [jsStartsWith, String.data_append]
  simp [listIsPrefix, List.cons_append]

theorem researcher_id_not_marker (x t : String) :
    jsStartsWith ("researcher-" ++ x) ("placeholder-" ++ t) = false := by
  simp only [jsStartsWith, String.data_append]
  simp [listIsPrefix, List.cons_append]

theorem paper_id_ne_researcher_id (x y : String) :
    "paper-" ++ x ≠ "researcher-" ++ y := by
  intro h
  have hd := congrArg String.data h
  rw [String.data_append, String.data_append,
    show "paper-".data = 'p' :: 'a' :: 'p' :: 'e' :: 'r' :: '-' :: [] from rfl,
    show "researcher-".data =
        'r' :: 'e' :: 's' :: 'e' :: 'a' :: 'r' :: 'c' :: 'h' :: 'e' :: 'r' :: '-' :: []
      from rfl] at hd
  simp at hd

theorem ne_of_marker_mismatch {p s marker : String}
    (hp : jsStartsWith p marker = true) (hs : jsStartsWith s marker = false) : p ≠ s := by
  intro h
  rw [h, hs] at hp
  cases hp

/-! ## Supporting lemmas: lists and guarded pushes -/

theorem nodup_append_singleton {α : Type _} {l : List α} {a : α}
    (h : a ∉ l) (hl : l.Nodup) : (l ++ [a]).Nodup :=
  (List.nodup_cons.mpr ⟨h, hl⟩).perm (List.perm_append_singleton a l).symm

theorem foldl_invariant {α β : Type _} (f : β → α → β) (P : β → Prop)
    (hf : ∀ st a, P st → P (f st a)) :
    ∀ (l : List α) (st : β), P st → P (l.foldl f st) := by
  intro l
  induction l with
  | nil => exact fun st h => h
  | cons a as ih => exact fun st h => ih _ (hf st a h)

theorem id_not_mem_of_find?_none {nodes : List GraphNode} {pid : String}
    (h : nodes.find? (fun n => n.id = pid) = none) :
    pid ∉ nodes.map GraphNode.id := by
  rw [List.find?_eq_none] at h
  intro hm
  rcases List.mem_map.mp hm with ⟨n, hn, hid⟩
  have hne := h n hn
  simp only [decide_eq_true_eq] at hne
  exact hne hid

theorem mem_ids_of_find?_isSome {nodes : List GraphNode} {pid : String}
    (h : (nodes.find? (fun n => n.id = pid)).isSome = true) :
    pid ∈ nodes.map GraphNode.id := by
  rcases List.find?_isSome.mp h with ⟨n, hn, hp⟩
  exact List.mem_map.mpr ⟨n, hn, by simpa using hp⟩

theorem upsertNodeById_ids_sub (nodes : List GraphNode) (rn : GraphNode) :
    ∀ x ∈ nodes.map GraphNode.id, x ∈ (upsertNodeById nodes rn).map GraphNode.id := by
  intro x hx
  unfold upsertNodeById
  split
  · exact hx
  · rw [List.map_append]
    exact List.mem_append_left _ hx

theorem upsertNodeById_id_mem (nodes : List GraphNode) (rn : GraphNode) :
    rn.id ∈ (upsertNodeById nodes rn).map GraphNode.id := by
  unfold upsertNodeById
  split
  · next hf => exact mem_ids_of_find?_isSome hf
  · rw [List.map_append]
    exact List.mem_append_right _ (by simp)

theorem upsertNodeById_nodup (nodes : List GraphNode) (rn : GraphNode)
    (h : (nodes.map GraphNode.id).Nodup) :
    ((upsertNodeById nodes rn).map GraphNode.id).Nodup := by
  unfold upsertNodeById
  split
  · exact h
  · next hf =>
    have hnone : nodes.find? (fun n => n.id = rn.id) = none :=
      Option.not_isSome_iff_eq_none.mp hf
    rw [List.map_append]
    exact nodup_append_singleton (by simpa using id_not_mem_of_find?_none hnone) h

theorem pushSourceLink_closed (links : List GraphLink) (rid : String)
    (spid : Option String) (P : GraphLink → Prop)
    (hall : ∀ l ∈ links, P l)
    (hnew : jsTruthyStr spid = true →
      P { source := rid, target := spid.getD "", type := .authored, value := some 2 }) :
    ∀ l ∈ pushSourceLinkIfMissing links rid spid, P l := by
  intro l hl
  simp only [pushSourceLinkIfMissing] at hl
  split at hl
  · next htr =>
    split at hl
    · exact hall l hl
    · rcases List.mem_append.mp hl with h1 | h2
      · exact hall l h1
      · rcases List.mem_singleton.mp h2 with rfl
        exact hnew htr
  · exact hall l hl

/-! ## C5: node-id uniqueness -/

theorem addMorePapersStep_nodup (rid : String) (tot : ℕ) (st : GraphData) (a : Article)
    (h : NodupIds st) : NodupIds (addMorePapersStep rid tot st a) := by
  by_cases hf : (st.nodes.find? (fun n => n.id = paperIdOf a)).isSome = true
  · simpa [addMorePapersStep, hf] using h
  · have hnone : st.nodes.find? (fun n => n.id = paperIdOf a) = none :=
      Option.not_isSome_iff_eq_none.mp hf
    have hnotmem := id_not_mem_of_find?_none hnone
    simp only [NodupIds, idsOf] at h ⊢
    simp only [addMorePapersStep, hf, if_false, Bool.false_eq_true, List.map_append]
    exact nodup_append_singleton (by simpa using hnotmem) h

theorem addMorePapers_nodup (g : GraphData) (rid : String) (arts : List Article)
    (hg : NodupIds g) : NodupIds (addMorePapers g rid arts) :=
  foldl_invariant _ NodupIds (fun st a h => addMorePapersStep_nodup rid arts.length st a h)
    arts g hg

theorem addResearcherPaperStep_nodup (rid : String) (pos : ℝ × ℝ) (tot : ℕ)
    (spid : Option String) (st : GraphData) (p : ℕ × Article)
    (h : NodupIds st) : NodupIds (addResearcherPaperStep rid pos tot spid st p) := by
  by_cases hskip : spid = some (paperIdOf p.2)
  · simpa [addResearcherPaperStep, hskip] using h
  · by_cases hf : (st.nodes.find? (fun n => n.id = paperIdOf p.2)).isSome = true
    · by_cases hl : (st.links.any fun l =>
          (l.source = rid && l.target = paperIdOf p.2) ||
          (l.source = paperIdOf p.2 && l.target = rid)) = true
      · simpa [addResearcherPaperStep, hskip, hf, hl] using h
      · simpa [addResearcherPaperStep, hskip, hf, hl] using h
    · have hnone : st.nodes.find? (fun n => n.id = paperIdOf p.2) = none :=
        Option.not_isSome_iff_eq_none.mp hf
      have hnotmem := id_not_mem_of_find?_none hnone
      simp only [NodupIds, idsOf] at h ⊢
      simp only [addResearcherPaperStep, hskip, hf, if_false, Bool.false_eq_true,
        if_neg, List.map_append]
      exact nodup_append_singleton (by simpa using hnotmem) h

theorem addResearcherToGraph_nodup (g : GraphData) (data : ScholarAuthorResponse)
    (spid : Option String) (mp : ℕ) (g' : GraphData)
    (hg : NodupIds g) (hok : addResearcherToGraph g data spid mp = .ok g') :
    NodupIds g' := by
  rcases hauth : data.author with - | auth
  · simp only [addResearcherToGraph, hauth] at hok
    cases hok
  · rcases harts : data.articles with - | arts
    · simp only [addResearcherToGraph, hauth, harts] at hok
      cases hok
    · simp only [addResearcherToGraph, hauth, harts, Except.ok.injEq] at hok
      subst hok
      refine foldl_invariant _ NodupIds
        (fun st p h => addResearcherPaperStep_nodup _ _ _ _ st p h) _ _ ?_
      exact upsertNodeById_nodup _ _ hg


/-! ## C6 supporting lemmas: no dangling edges (builder and growth ops) -/

theorem enum_map_comp {α β : Type _} (l : List α) (f : α → β) :
    l.enum.map (fun p => f p.2) = l.map f := by
  rw [show (fun p : ℕ × α => f p.2) = f ∘ Prod.snd from rfl, ← List.map_map,
    List.enum_map_snd]

theorem transformAuthorToGraph_noDangling (data : ScholarAuthorResponse) (mp : ℕ)
    (ico : Bool) (g' : GraphData)
    (hok : transformAuthorToGraph data mp ico = .ok g') : NoDangling g' := by
  rcases hauth : data.author with - | auth
  · simp only [transformAuthorToGraph, hauth] at hok
    cases hok
  rcases harts : data.articles with - | arts
  · simp only [transformAuthorToGraph, hauth, harts] at hok
    cases hok
  simp only [transformAuthorToGraph, hauth, harts, Except.ok.injEq] at hok
  subst hok
  intro l hl
  simp only [idsOf, List.map_cons, List.map_append, List.map_map] at hl ⊢
  rcases List.mem_append.mp hl with hpl | hcl
  · rcases List.mem_map.mp hpl with ⟨a, ha, rfl⟩
    refine ⟨List.mem_cons_self _ _, List.mem_cons_of_mem _ (List.mem_append_left _ ?_)⟩
    rw [show (GraphNode.id ∘ fun p : ℕ × Article =>
        transformPaperNode p.2 p.1 (arts.take mp).length)
        = fun p : ℕ × Article => paperIdOf p.2 from rfl, enum_map_comp]
    exact List.mem_map_of_mem _ ha
  · rcases List.mem_map.mp hcl with ⟨c, hc, rfl⟩
    refine ⟨List.mem_cons_self _ _, List.mem_cons_of_mem _ (List.mem_append_right _ ?_)⟩
    rw [show (GraphNode.id ∘ transformCoAuthorNode)
        = fun c : CoAuthor => "coauthor-" ++ c.author_id from rfl]
    exact List.mem_map_of_mem _ hc

theorem addMorePapersStep_noDangling (rid : String) (tot : ℕ) (st : GraphData)
    (a : Article) (h : NoDangling st ∧ rid ∈ idsOf st) :
    NoDangling (addMorePapersStep rid tot st a)
      ∧ rid ∈ idsOf (addMorePapersStep rid tot st a) := by
  by_cases hf : (st.nodes.find? (fun n => n.id = paperIdOf a)).isSome = true
  · simpa [addMorePapersStep, hf] using h
  · obtain ⟨hnd, hrid⟩ := h
    simp only [NoDangling, idsOf, addMorePapersStep, hf, if_false, Bool.false_eq_true,
      List.map_append] at hnd hrid ⊢
    constructor
    · intro l hl
      rcases List.mem_append.mp hl with h1 | h2
      · obtain ⟨hs, ht⟩ := hnd l h1
        exact ⟨List.mem_append_left _ hs, List.mem_append_left _ ht⟩
      · rcases List.mem_singleton.mp h2 with rfl
        exact ⟨List.mem_append_left _ hrid,
          List.mem_append_right _ (List.mem_singleton_self _)⟩
    · exact List.mem_append_left _ hrid

theorem addMorePapers_noDangling (g : GraphData) (rid : String) (arts : List Article)
    (hg : NoDangling g) (hrid : rid ∈ idsOf g) :
    NoDangling (addMorePapers g rid arts) :=
  (foldl_invariant _ (fun st => NoDangling st ∧ rid ∈ idsOf st)
    (fun st a h => addMorePapersStep_noDangling rid arts.length st a h)
    arts g ⟨hg, hrid⟩).1

theorem addResearcherPaperStep_noDangling (rid : String) (pos : ℝ × ℝ) (tot : ℕ)
    (spid : Option String) (st : GraphData) (p : ℕ × Article)
    (h : NoDangling st ∧ rid ∈ idsOf st) :
    NoDangling (addResearcherPaperStep rid pos tot spid st p)
      ∧ rid ∈ idsOf (addResearcherPaperStep rid pos tot spid st p) := by
  by_cases hskip : spid = some (paperIdOf p.2)
  · simpa [addResearcherPaperStep, hskip] using h
  obtain ⟨hnd, hrid⟩ := h
  by_cases hf : (st.nodes.find? (fun n => n.id = paperIdOf p.2)).isSome = true
  · have hpid := mem_ids_of_find?_isSome hf
    by_cases hl : (st.links.any fun l =>
        (l.source = rid && l.target = paperIdOf p.2) ||
        (l.source = paperIdOf p.2 && l.target = rid)) = true
    · simpa [addResearcherPaperStep, hskip, hf, hl] using ⟨hnd, hrid⟩
    · simp only [addResearcherPaperStep, hskip, if_neg hskip, hf, if_true, hl, if_false,
        Bool.false_eq_true, NoDangling, idsOf] at hnd hrid hpid ⊢
      refine ⟨?_, hrid⟩
      intro l hlm
      rcases List.mem_append.mp hlm with h1 | h2
      · exact hnd l h1
      · rcases List.mem_singleton.mp h2 with rfl
        exact ⟨hrid, hpid⟩
  · simp only [addResearcherPaperStep, hskip, if_neg hskip, hf, if_false,
      Bool.false_eq_true, NoDangling, idsOf, List.map_append] at hnd hrid ⊢
    constructor
    · intro l hlm
      rcases List.mem_append.mp hlm with h1 | h2
      · obtain ⟨hs, ht⟩ := hnd l h1
        exact ⟨List.mem_append_left _ hs, List.mem_append_left _ ht⟩
      · rcases List.mem_singleton.mp h2 with rfl
        exact ⟨List.mem_append_left _ hrid,
          List.mem_append_right _ (List.mem_singleton_self _)⟩
    · exact List.mem_append_left _ hrid

theorem addResearcherToGraph_noDangling (g : GraphData) (data : ScholarAuthorResponse)
    (spid : Option String) (mp : ℕ) (g' : GraphData) (hg : NoDangling g)
    (hsp : jsTruthyStr spid = true → spid.getD "" ∈ idsOf g)
    (hok : addResearcherToGraph g data spid mp = .ok g') : NoDangling g' := by
  rcases hauth : data.author with - | auth
  · simp only [addResearcherToGraph, hauth] at hok
    cases hok
  rcases harts : data.articles with - | arts
  · simp only [addResearcherToGraph, hauth, harts] at hok
    cases hok
  simp only [addResearcherToGraph, hauth, harts, Except.ok.injEq] at hok
  subst hok
  refine (foldl_invariant _
    (fun st => NoDangling st ∧ ("researcher-" ++ auth.name) ∈ idsOf st)
    (fun st p h => addResearcherPaperStep_noDangling _ _ _ _ st p h) _ _
    ⟨?_, ?_⟩).1
  · intro l hl
    refine pushSourceLink_closed g.links _ spid
      (fun l => l.source ∈ idsOf _ ∧ l.target ∈ idsOf _) ?_ ?_ l hl
    · intro l' hl'
      obtain ⟨hs, ht⟩ := hg l' hl'
      exact ⟨upsertNodeById_ids_sub _ _ _ hs, upsertNodeById_ids_sub _ _ _ ht⟩
    · intro htr
      exact ⟨upsertNodeById_id_mem _ _, upsertNodeById_ids_sub _ _ _ (hsp htr)⟩
  · exact upsertNodeById_id_mem _ _

theorem addResearcherPlaceholders_noDangling (g : GraphData) (name : String)
    (spid : Option String) (count : ℕ) (hg : NoDangling g)
    (hsp : jsTruthyStr spid = true → spid.getD "" ∈ idsOf g) :
    NoDangling (addResearcherPlaceholders g name spid count) := by
  intro l hl
  simp only [addResearcherPlaceholders, idsOf, List.map_append, List.map_map] at hl ⊢
  rcases List.mem_append.mp hl with h1 | h2
  · refine pushSourceLink_closed g.links _ spid
      (fun l => l.source ∈ _ ∧ l.target ∈ _) ?_ ?_ l h1
    · intro l' hl'
      obtain ⟨hs, ht⟩ := hg l' hl'
      exact ⟨List.mem_append_left _ (upsertNodeById_ids_sub _ _ _ hs),
        List.mem_append_left _ (upsertNodeById_ids_sub _ _ _ ht)⟩
    · intro htr
      exact ⟨List.mem_append_left _ (upsertNodeById_id_mem _ _),
        List.mem_append_left _ (upsertNodeById_ids_sub _ _ _ (hsp htr))⟩
  · rcases List.mem_map.mp h2 with ⟨i, hi, rfl⟩
    refine ⟨List.mem_append_left _ (upsertNodeById_id_mem _ _), ?_⟩
    refine List.mem_append_right _ ?_
    rw [show (GraphNode.id ∘ fun i =>
        placeholderNodeOf name i count (placeholdersPlacement g spid))
        = fun i => placeholderIdOf name i from rfl]
    exact List.mem_map_of_mem _ hi

/-- C5 counterexample: `transformAuthorToGraph` performs no duplicate
check; a payload whose two articles derive the same id (same title, no
`citation_id`) yields two nodes with id `paper-T`. -/
theorem c5_counterexample_duplicate_ids :
    ((transformAuthorToGraph
        { author := some { name := "A" },
          articles := some [{ title := "T" }, { title := "T" }] } 10 false).map
      fun g => idsOf g) = .ok ["researcher-A", "paper-T", "paper-T"]
  ∧ ¬ (["researcher-A", "paper-T", "paper-T"] : List String).Nodup :=
  ⟨rfl, by decide⟩

/-- C5 amended: `addMorePapers` and `addResearcherToGraph` check for an
existing node with the derived id and skip insertion (leaving the
existing node unchanged rather than updating it), so they preserve
pairwise-distinct node ids; but `transformAuthorToGraph`,
`addResearcherPlaceholders` and `updateResearcherPapers` perform no
duplicate check, and deriving an existing id (or the same id twice in
one payload) there produces two nodes with the same id. -/
theorem c5_amended_unique_ids (g : GraphData) (hg : NodupIds g) :
    (∀ (rid : String) (arts : List Article), NodupIds (addMorePapers g rid arts))
  ∧ (∀ (data : ScholarAuthorResponse) (spid : Option String) (mp : ℕ) (g' : GraphData),
      addResearcherToGraph g data spid mp = .ok g' → NodupIds g') :=
  ⟨fun rid arts => addMorePapers_nodup g rid arts hg,
   fun data spid mp g' hok => addResearcherToGraph_nodup g data spid mp g' hg hok⟩

/-- C5 amended, witness: both preserved operations applied to the empty
graph with one-article inputs. -/
theorem c5_amended_unique_ids_witness :
    NodupIds (addMorePapers { nodes := [], links := [] } "researcher-A" [{ title := "T" }])
  ∧ NodupIds ((addResearcherToGraph { nodes := [], links := [] }
      { author := some { name := "A" }, articles := some [{ title := "T" }] }
      none 20).toOption.getD { nodes := [], links := [] }) := by
  have hg : NodupIds ({ nodes := [], links := [] } : GraphData) := by
    simp [NodupIds, idsOf]
  exact ⟨(c5_amended_unique_ids _ hg).1 _ _,
    (c5_amended_unique_ids _ hg).2
      { author := some { name := "A" }, articles := some [{ title := "T" }] }
      none 20 _ (by rfl)⟩

/-- C1: the claim says a payload without an author record yields an empty
graph without throwing; the source (graph-transformer.ts line 74)
dereferences `data.author.name` unguarded, so such a payload throws a
`TypeError` instead — evaluated here at the failing input
`{ articles: [] }` (no `author`).  A sibling copy of the same function in
the repository carries the missing `if (!data.author) return { nodes: [],
links: [] }` guard, so the claim matches the evident intent and the
shipped function is the slip. -/
theorem c1_transform_throws_without_author :
    transformAuthorToGraph { author := none, articles := some [] } 10 false =
      .error "TypeError: Cannot read properties of undefined (reading name)" := rfl

/-- C7 counterexample: the claim says citation-count extraction yields `0`
when the `cited_by.value` string fails to parse as an integer; on
`value = "abc"` the source stores `parseInt("abc", 10) = NaN`, not `0`. -/
theorem c7_counterexample_nan_not_zero :
    extractCitationCount
        { title := "T", cited_by := some { value := some (.str "abc") } } ≠ some 0 := by
  decide

/-- C7 amended: extraction tries `inline_links.cited_by.total`, then
`cited_by.total` (each accepted when present and nonzero), then
`cited_by.value` (string: commas removed then `parseInt`, so `"12,345"`
yields `12345`; number: as-is); it yields `0` when all shapes are absent
and `NaN` (not `0`) when the string fails to parse. -/
theorem c7_amended_extraction (a : Article) :
    (∀ t : ℤ,
        (a.inline_links.bind InlineLinks.cited_by).bind InlineCitedBy.total = some t →
        t ≠ 0 → extractCitationCount a = some t)
  ∧ (∀ t : ℤ,
        jsTruthyInt ((a.inline_links.bind InlineLinks.cited_by).bind InlineCitedBy.total)
          = false →
        a.cited_by.bind CitedByInfo.total = some t → t ≠ 0 →
        extractCitationCount a = some t)
  ∧ (jsTruthyInt ((a.inline_links.bind InlineLinks.cited_by).bind InlineCitedBy.total)
        = false →
     jsTruthyInt (a.cited_by.bind CitedByInfo.total) = false →
       (∀ s : String, a.cited_by.bind CitedByInfo.value = some (.str s) →
          extractCitationCount a = parseIntJS (stripCommas s))
     ∧ (∀ n : ℤ, a.cited_by.bind CitedByInfo.value = some (.num n) →
          extractCitationCount a = some n)
     ∧ (a.cited_by.bind CitedByInfo.value = none → extractCitationCount a = some 0))
  ∧ parseIntJS (stripCommas "12,345") = some 12345 := by
  refine ⟨?_, ?_, ?_, by decide⟩
  · intro t ht htne
    simp [extractCitationCount, ht, jsTruthyInt, htne]
  · intro t hil ht htne
    have h2 : jsTruthyInt (some t) = true := by simp [jsTruthyInt, htne]
    simp [extractCitationCount, hil, ht, h2]
  · intro hil hcb
    refine ⟨?_, ?_, ?_⟩
    · intro s hs
      simp [extractCitationCount, hil, hcb, hs]
    · intro n hn
      simp [extractCitationCount, hil, hcb, hn]
    · intro hv
      simp [extractCitationCount, hil, hcb, hv]

/-- C7 amended, witness: at a concrete article whose `cited_by.value` is
the string `"12,345"`, extraction yields the integer `12345`. -/
theorem c7_amended_extraction_witness :
    extractCitationCount
        { title := "T", cited_by := some { value := some (.str "12,345") } }
      = some 12345 := by
  have h := (c7_amended_extraction
    { title := "T", cited_by := some { value := some (.str "12,345") } }).2.2.1
    rfl rfl
  rw [h.1 "12,345" rfl]
  decide

/-- C8 counterexample: the claim divides the hash by 2^32, but the source
divides by `0xffffffff = 2^32 - 1` (lines 38 and 47); at seed `"a"`
(hash 97), index 0, the claimed angle differs from the computed one. -/
theorem c8_counterexample_hash_divisor :
    (generateRadialPosition "a" 0 20 (0, 0) 1200 800).angle ≠
      (0 : ℝ) * 2.399963229728653
        + ((hashString "a" : ℝ) / 2 ^ 32 * 0.5 - 0.25) * (Real.pi / 6) := by
  have h97 : ((hashString "a" : ℕ) : ℝ) = 97 := by
    norm_num [show hashString "a" = 97 from by decide]
  simp only [generateRadialPosition, h97]
  intro h
  have hπ := Real.pi_pos
  have hgap : (0 : ℝ) <
      ((97 / 4294967295 * 0.5 - 0.25) - (97 / 2 ^ 32 * 0.5 - 0.25)) * (Real.pi / 6) := by
    have : (0 : ℝ) < (97 / 4294967295 * 0.5 - 0.25) - (97 / 2 ^ 32 * 0.5 - 0.25) := by
      norm_num
    positivity
  nlinarith [hgap]

/-- C8 amended: `generateRadialPosition` computes the 32-bit hash by
`hash = (hash*31 + charCode) mod 2^32`, then
`angle = index * 2.399963229728653 + ((hash/(2^32-1)) * 0.5 - 0.25) * (π/6)`,
`maxSafeRadius = 0.35 * min(viewportWidth, viewportHeight)`, the internal
`distance = 0.85*maxSafeRadius + (hash/(2^32-1)) * 0.15*maxSafeRadius`
(the returned `distance` field is its `Math.round`), and
`position = center + (cos angle, sin angle) * distance` (unrounded):
the divisor is `2^32 - 1`, not `2^32`. -/
theorem c8_amended_radial (seed : String) (index totalNodes : ℕ)
    (center : ℝ × ℝ) (vw vh : ℝ) :
    hashString seed = seed.data.foldl (fun h c => (h * 31 + c.toNat) % 2 ^ 32) 0
  ∧ (generateRadialPosition seed index totalNodes center vw vh).angle
      = (index : ℝ) * 2.399963229728653
        + ((hashString seed : ℝ) / (2 ^ 32 - 1) * 0.5 - 0.25) * (Real.pi / 6)
  ∧ (generateRadialPosition seed index totalNodes center vw vh).distance
      = jsRound (0.85 * (0.35 * min vw vh)
          + (hashString seed : ℝ) / (2 ^ 32 - 1) * (0.15 * (0.35 * min vw vh)))
  ∧ (generateRadialPosition seed index totalNodes center vw vh).x
      = center.1
        + Real.cos (generateRadialPosition seed index totalNodes center vw vh).angle
          * (0.85 * (0.35 * min vw vh)
              + (hashString seed : ℝ) / (2 ^ 32 - 1) * (0.15 * (0.35 * min vw vh)))
  ∧ (generateRadialPosition seed index totalNodes center vw vh).y
      = center.2
        + Real.sin (generateRadialPosition seed index totalNodes center vw vh).angle
          * (0.85 * (0.35 * min vw vh)
              + (hashString seed : ℝ) / (2 ^ 32 - 1) * (0.15 * (0.35 * min vw vh))) := by
  refine ⟨by simp only [show (2 : ℕ) ^ 32 = 4294967296 from by norm_num]; rfl, ?_, ?_, ?_, ?_⟩
  · simp only [generateRadialPosition]
    norm_num
    ring
  · simp only [generateRadialPosition]
    congr 1
    norm_num
    ring
  · simp only [generateRadialPosition]
    norm_num
    ring_nf
    exact Or.inl trivial
  · simp only [generateRadialPosition]
    norm_num
    ring_nf
    exact Or.inl trivial

/-- C10 counterexample: for the article `{ title: "T", cited_by:
{ total: 10000 } }`, `addMorePapers` (which reads only `cited_by.value`)
assigns size `8`, while `transformAuthorToGraph` (which also reads
`cited_by.total`) assigns `min(10, 5 + log10(10000)*1.5) = 10`, so the
`addMorePapers` size is not strictly larger. -/
theorem c10_counterexample_smaller_size :
    (((addMorePapers { nodes := [], links := [] } "researcher-A"
        [{ title := "T", cited_by := some { total := some 10000 } }]).nodes.getD 0
          dummyNode).val)
      <
    ((((transformAuthorToGraph
        { author := some { name := "A" },
          articles := some [{ title := "T", cited_by := some { total := some 10000 } }] }
        10 false).toOption.getD { nodes := [], links := [] }).nodes.getD 1
          dummyNode).val) := by
  show (8 : ℝ) < min 10 (5 + Real.logb 10 ((10000 : ℤ) : ℝ) * 1.5)
  have h4 : Real.logb 10 ((10000 : ℤ) : ℝ) = 4 := by
    have h : ((10000 : ℤ) : ℝ) = (10 : ℝ) ^ (4 : ℕ) := by norm_num
    rw [h, Real.logb_pow, Real.logb_self_eq_one] <;> norm_num
  rw [h4, min_def]
  norm_num

/-- C10 amended: at equal extracted citation counts the `addMorePapers`
size (`min(20, 8 + log10 cc * 3)`, else `8`) is strictly larger than the
initial-build size (`min(10, 5 + log10 cc * 1.5)`, else `5`); but
`addMorePapers` extracts the count only from `cited_by.value`, while
`transformAuthorToGraph` also consults `inline_links.cited_by.total` and
`cited_by.total`, so for an article whose count is carried only by a
`total` shape the two operations size from different counts (and
`addMorePapers` can be smaller, per the counterexample). -/
theorem c10_amended_sizes :
    (∀ c : JSInt, nodeSizeSmall c < nodeSizeLarge c)
  ∧ (∀ (rid : String) (article : Article),
      ((addMorePapers { nodes := [], links := [] } rid [article]).nodes.getD 0
          dummyNode).val
        = nodeSizeLarge (extractCitationCountValueOnly article))
  ∧ (∀ (auth : ScholarAuthor) (article : Article),
      (((transformAuthorToGraph { author := some auth, articles := some [article] }
            10 false).toOption.getD { nodes := [], links := [] }).nodes.getD 1
          dummyNode).val
        = nodeSizeSmall (extractCitationCount article)) := by
  refine ⟨?_, fun rid article => rfl, fun auth article => rfl⟩
  intro c
  match c with
  | none =>
    norm_num [nodeSizeSmall, nodeSizeLarge]
  | some n =>
    by_cases hn : 0 < n
    · have h1 : (1 : ℝ) ≤ (n : ℝ) := by
        have : (1 : ℤ) ≤ n := hn
        exact_mod_cast this
      have hL : 0 ≤ Real.logb 10 (n : ℝ) := Real.logb_nonneg (by norm_num) h1
      simp only [nodeSizeSmall, nodeSizeLarge, if_pos hn]
      rw [lt_min_iff]
      refine ⟨lt_of_le_of_lt (min_le_left _ _) (by norm_num), ?_⟩
      exact lt_of_le_of_lt (min_le_right _ _) (by linarith)
    · simp only [nodeSizeSmall, nodeSizeLarge, if_neg hn]
      norm_num

/-! ## Supporting lemmas: positional list reasoning -/

theorem getD_set_self' {α : Type _} (l : List α) (i : ℕ) (a d : α) (h : i < l.length) :
    (l.set i a).getD i d = a := by
  rw [List.getD_eq_getElem _ _ (by simpa using h)]
  exact List.getElem_set_self _

theorem getD_set_ne' {α : Type _} (l : List α) {i j : ℕ} (a d : α) (h : i ≠ j) :
    (l.set i a).getD j d = l.getD j d := by
  rw [List.getD_eq_getElem?_getD, List.getD_eq_getElem?_getD, List.getElem?_set]
  simp [h]

theorem getD_id (nodes : List GraphNode) (i : ℕ) :
    (nodes.getD i dummyNode).id = (nodes.map GraphNode.id).getD i "" := by
  by_cases h : i < nodes.length
  · rw [List.getD_eq_getElem _ _ h,
      List.getD_eq_getElem _ _ (by simpa using h), List.getElem_map]
  · rw [List.getD_eq_getElem?_getD, List.getD_eq_getElem?_getD,
      List.getElem?_eq_none (by omega),
      List.getElem?_eq_none (by rw [List.length_map]; omega)]
    rfl

theorem mem_eraseIdx_of_ne {α : Type _} (l : List α) (i j : ℕ) (hj : j < l.length)
    (hne : j ≠ i) : l[j] ∈ l.eraseIdx i := by
  rw [List.eraseIdx_eq_take_drop_succ]
  rcases lt_or_gt_of_ne hne with hlt | hgt
  · refine List.mem_append_left _ ?_
    have hjt : j < (l.take i).length := by
      rw [List.length_take]
      omega
    have : (l.take i)[j] = l[j] := List.getElem_take _
    rw [← this]
    exact List.getElem_mem _
  · refine List.mem_append_right _ ?_
    have hjd : j - (i + 1) < (l.drop (i + 1)).length := by
      rw [List.length_drop]
      omega
    have : (l.drop (i + 1))[j - (i + 1)] = l[j] := by
      rw [List.getElem_drop]
      congr 1
      omega
    rw [← this]
    exact List.getElem_mem _

theorem map_eraseIdx' {α β : Type _} (f : α → β) (l : List α) (i : ℕ) :
    (l.eraseIdx i).map f = (l.map f).eraseIdx i := by
  rw [List.eraseIdx_eq_take_drop_succ, List.eraseIdx_eq_take_drop_succ,
    List.map_append, List.map_take, List.map_drop]

theorem countP_eq_range {α : Type _} (p : α → Bool) (d : α) (l : List α) :
    l.countP p = ((List.range l.length).filter fun i => p (l.getD i d)).length := by
  induction l using List.reverseRecOn with
  | nil => rfl
  | append_singleton l a ih =>
    rw [List.countP_append, List.length_append, List.length_singleton, List.range_succ,
      List.filter_append]
    have h1 : (List.range l.length).filter (fun i => p ((l ++ [a]).getD i d))
        = (List.range l.length).filter fun i => p (l.getD i d) :=
      List.filter_congr fun i hi => by
        rw [List.getD_append _ _ _ _ (List.mem_range.mp hi)]
    have h2 : ((l ++ [a]).getD l.length d) = a := by
      rw [List.getD_append_right _ _ _ _ le_rfl]
      simp
    have h3 : List.filter (fun i => p ((l ++ [a]).getD i d)) [l.length]
        = if p a then [l.length] else [] := by
      simp only [List.filter, h2]
      cases hpa : p a <;> rfl
    rw [h1, List.length_append, ← ih, h3]
    cases hpa : p a <;> simp [hpa, List.countP_cons]

theorem length_filter_range_mem (M : List ℕ) (n : ℕ) (hM : M.Pairwise (· < ·))
    (hlt : ∀ i ∈ M, i < n) :
    (List.range n).filter (fun i => decide (i ∈ M)) = M := by
  have hperm : ((List.range n).filter fun i => decide (i ∈ M)).Perm M := by
    apply List.perm_of_nodup_nodup_toFinset_eq
    · exact (List.nodup_range n).filter _
    · exact hM.imp ne_of_lt
    · ext x
      simp only [List.mem_toFinset, List.mem_filter, List.mem_range,
        decide_eq_true_eq]
      exact ⟨fun h => h.2, fun h => ⟨hlt x h, h⟩⟩
  exact List.eq_of_perm_of_sorted hperm
    (((List.pairwise_lt_range n).filter _).imp le_of_lt) (hM.imp le_of_lt)

theorem zip_map_snd_take {α β : Type _} :
    ∀ (l₁ : List α) (l₂ : List β), (l₁.zip l₂).map Prod.snd = l₂.take l₁.length := by
  intro l₁
  induction l₁ with
  | nil => intro l₂; simp
  | cons a t ih =>
    intro l₂
    cases l₂ with
    | nil => simp
    | cons b t₂ => simp [ih]

/-! ## Supporting lemmas: placeholder indices -/

theorem phIdx_mem_iff (nodes : List GraphNode) (marker : String) (i : ℕ) :
    i ∈ placeholderIndicesOf nodes marker ↔
      i < nodes.length ∧ jsStartsWith (nodes.getD i dummyNode).id marker = true := by
  simp [placeholderIndicesOf, List.mem_filter, List.mem_range]

theorem phIdx_pairwise (nodes : List GraphNode) (marker : String) :
    (placeholderIndicesOf nodes marker).Pairwise (· < ·) :=
  (List.pairwise_lt_range _).filter _

theorem phIdx_congr_ids (nodes nodes' : List GraphNode) (marker : String)
    (h : nodes.map GraphNode.id = nodes'.map GraphNode.id) :
    placeholderIndicesOf nodes marker = placeholderIndicesOf nodes' marker := by
  have hlen : nodes.length = nodes'.length := by
    have h2 := congrArg List.length h
    simpa using h2
  unfold placeholderIndicesOf
  rw [hlen]
  exact List.filter_congr fun i _ => by rw [getD_id, getD_id, h]

/-! ## Supporting lemmas: the replacement pass -/

theorem updReplacePass_length :
    ∀ (pairs : List (Article × ℕ)) (nodes : List GraphNode) (links : List GraphLink),
      (updReplacePass nodes links pairs).1.length = nodes.length := by
  intro pairs
  induction pairs with
  | nil => intro nodes links; rfl
  | cons hd tl ih =>
    intro nodes links
    obtain ⟨a, idx⟩ := hd
    rw [updReplacePass, ih, List.length_set]

theorem updReplacePass_untouched :
    ∀ (pairs : List (Article × ℕ)) (nodes : List GraphNode) (links : List GraphLink)
      (j : ℕ), j ∉ pairs.map Prod.snd →
      (updReplacePass nodes links pairs).1.getD j dummyNode = nodes.getD j dummyNode := by
  intro pairs
  induction pairs with
  | nil => intro nodes links j _; rfl
  | cons hd tl ih =>
    intro nodes links j hj
    obtain ⟨a, idx⟩ := hd
    simp only [List.map_cons, List.mem_cons, not_or] at hj
    rw [updReplacePass, ih _ _ _ (by simpa using hj.2),
      getD_set_ne' _ _ _ fun h => hj.1 h.symm]

theorem updReplacePass_matched :
    ∀ (pairs : List (Article × ℕ)) (nodes : List GraphNode) (links : List GraphLink),
      (∀ p ∈ pairs, p.2 < nodes.length) → (pairs.map Prod.snd).Nodup →
      ∀ p ∈ pairs,
        (updReplacePass nodes links pairs).1.getD p.2 dummyNode
          = realPaperNode p.1 (nodes.getD p.2 dummyNode) := by
  intro pairs
  induction pairs with
  | nil => intro nodes links _ _ p hp; cases hp
  | cons hd tl ih =>
    intro nodes links hvalid hnodup p hp
    obtain ⟨a, idx⟩ := hd
    simp only [List.map_cons, List.nodup_cons] at hnodup
    rcases List.mem_cons.mp hp with rfl | htl
    · rw [updReplacePass, updReplacePass_untouched _ _ _ _ hnodup.1,
        getD_set_self' _ _ _ _ (hvalid _ (List.mem_cons_self _ _))]
    · rw [updReplacePass, ih _ _
        (fun q hq => by rw [List.length_set]; exact hvalid q (List.mem_cons_of_mem _ hq))
        hnodup.2 p htl,
        getD_set_ne' _ _ _ (fun h => hnodup.1 (by
          rw [h]; exact List.mem_map_of_mem Prod.snd htl))]

theorem rewriteChain_congr :
    ∀ (pairs : List (Article × ℕ)) (nodes nodes' : List GraphNode),
      (∀ p ∈ pairs, (nodes.getD p.2 dummyNode).id = (nodes'.getD p.2 dummyNode).id) →
      ∀ l, rewriteChain nodes pairs l = rewriteChain nodes' pairs l := by
  intro pairs
  induction pairs with
  | nil => intro nodes nodes' _ l; rfl
  | cons hd tl ih =>
    intro nodes nodes' h l
    simp only [rewriteChain, List.foldl_cons] at *
    rw [h hd (List.mem_cons_self _ _)]
    exact ih nodes nodes' (fun p hp => h p (List.mem_cons_of_mem _ hp)) _

theorem updReplacePass_links_eq :
    ∀ (pairs : List (Article × ℕ)) (nodes : List GraphNode) (links : List GraphLink),
      (pairs.map Prod.snd).Nodup →
      (updReplacePass nodes links pairs).2 = links.map (rewriteChain nodes pairs) := by
  intro pairs
  induction pairs with
  | nil =>
    intro nodes links _
    show links = List.map (rewriteChain nodes []) links
    simp [show rewriteChain nodes [] = fun l => l from rfl]
  | cons hd tl ih =>
    intro nodes links hnodup
    obtain ⟨a, idx⟩ := hd
    simp only [List.map_cons, List.nodup_cons] at hnodup
    rw [updReplacePass, ih _ _ hnodup.2, List.map_map]
    refine List.map_congr_left fun l _ => ?_
    have hcongr := rewriteChain_congr tl
      (nodes.set idx (realPaperNode a (nodes.getD idx dummyNode))) nodes
      (fun p hp => by
        rw [getD_set_ne' _ _ _
          (fun h => hnodup.1 (by rw [h]; exact List.mem_map_of_mem Prod.snd hp))])
    simp only [Function.comp_apply, rewriteChain, List.foldl_cons]
    exact hcongr _

theorem strRewriteChain_miss :
    ∀ (pairs : List (Article × ℕ)) (nodes : List GraphNode) (s : String),
      (∀ p ∈ pairs, s ≠ (nodes.getD p.2 dummyNode).id) →
      strRewriteChain nodes pairs s = s := by
  intro pairs
  induction pairs with
  | nil => intro nodes s _; rfl
  | cons hd tl ih =>
    intro nodes s h
    simp only [strRewriteChain, List.foldl_cons,
      if_neg (h hd (List.mem_cons_self _ _))]
    exact ih nodes s fun p hp => h p (List.mem_cons_of_mem _ hp)

theorem strRewriteChain_append (nodes : List GraphNode)
    (pre post : List (Article × ℕ)) (s : String) :
    strRewriteChain nodes (pre ++ post) s
      = strRewriteChain nodes post (strRewriteChain nodes pre s) := by
  simp [strRewriteChain, List.foldl_append]

theorem strRewriteChain_hit (nodes : List GraphNode)
    (pre post : List (Article × ℕ)) (p : Article × ℕ) (s : String)
    (hs : s = (nodes.getD p.2 dummyNode).id)
    (hpre : ∀ q ∈ pre, s ≠ (nodes.getD q.2 dummyNode).id)
    (hpost : ∀ q ∈ post, paperIdOf p.1 ≠ (nodes.getD q.2 dummyNode).id) :
    strRewriteChain nodes (pre ++ p :: post) s = paperIdOf p.1 := by
  rw [strRewriteChain_append, strRewriteChain_miss pre nodes s hpre]
  simp only [strRewriteChain, List.foldl_cons, if_pos hs]
  exact strRewriteChain_miss post nodes _ hpost

theorem rewriteChain_eq_str (nodes : List GraphNode) :
    ∀ (pairs : List (Article × ℕ)) (l : GraphLink),
      rewriteChain nodes pairs l =
        { l with source := strRewriteChain nodes pairs l.source
                 target := strRewriteChain nodes pairs l.target } := by
  intro pairs
  induction pairs with
  | nil => intro l; rfl
  | cons hd tl ih =>
    intro l
    simp only [rewriteChain, strRewriteChain, List.foldl_cons] at *
    exact ih _

/-! ## Supporting lemmas: the removal pass -/

theorem getD_eraseIdx_lt {α : Type _} (l : List α) (i j : ℕ) (d : α) (hj : j < i)
    (hi : i < l.length) : (l.eraseIdx i).getD j d = l.getD j d := by
  rw [List.eraseIdx_eq_take_drop_succ,
    List.getD_append _ _ _ _ (by rw [List.length_take]; omega),
    List.getD_eq_getElem _ _ (by rw [List.length_take]; omega),
    List.getD_eq_getElem _ _ (by omega), List.getElem_take]

theorem countP_eraseIdx_of_false {α : Type _} (l : List α) (i : ℕ) (p : α → Bool)
    (d : α) (hi : i < l.length) (hp : p (l.getD i d) = false) :
    (l.eraseIdx i).countP p = l.countP p := by
  have hpe : p l[i] = false := by
    rw [List.getD_eq_getElem _ _ hi] at hp
    exact hp
  rw [List.eraseIdx_eq_take_drop_succ, List.countP_append]
  conv_rhs =>
    rw [← List.take_append_drop i l, List.countP_append,
      List.drop_eq_getElem_cons hi, List.countP_cons]
  simp [hpe]

theorem updRemovePass_length :
    ∀ (rem : List ℕ) (nodes : List GraphNode) (links : List GraphLink),
      (∀ i ∈ rem, i < nodes.length) → rem.Pairwise (· > ·) →
      (updRemovePass nodes links rem).1.length = nodes.length - rem.length := by
  intro rem
  induction rem with
  | nil => intro nodes links _ _; simp [updRemovePass]
  | cons idx tl ih =>
    intro nodes links hvalid hdesc
    have hidx : idx < nodes.length := hvalid idx (List.mem_cons_self _ _)
    have hlen : (nodes.eraseIdx idx).length = nodes.length - 1 := by
      rw [List.length_eraseIdx]
      simp [hidx]
    rw [updRemovePass, ih _ _
      (fun i hi => by
        rw [hlen]
        have h1 : i < idx := List.rel_of_pairwise_cons hdesc hi
        omega)
      hdesc.of_cons, hlen, List.length_cons]
    omega

theorem updRemovePass_getD_lt :
    ∀ (rem : List ℕ) (nodes : List GraphNode) (links : List GraphLink) (j : ℕ),
      (∀ i ∈ rem, i < nodes.length) → rem.Pairwise (· > ·) → (∀ i ∈ rem, j < i) →
      (updRemovePass nodes links rem).1.getD j dummyNode = nodes.getD j dummyNode := by
  intro rem
  induction rem with
  | nil => intro nodes links j _ _ _; rfl
  | cons idx tl ih =>
    intro nodes links j hvalid hdesc hj
    have hidx : idx < nodes.length := hvalid idx (List.mem_cons_self _ _)
    rw [updRemovePass, ih _ _ _
      (fun i hi => by
        rw [List.length_eraseIdx]
        have h1 : i < idx := List.rel_of_pairwise_cons hdesc hi
        simp [hidx]
        omega)
      hdesc.of_cons (fun i hi => hj i (List.mem_cons_of_mem _ hi)),
      getD_eraseIdx_lt _ _ _ _ (hj idx (List.mem_cons_self _ _)) hidx]

theorem updRemovePass_no_marker (marker : String) :
    ∀ (rem : List ℕ) (nodes : List GraphNode) (links : List GraphLink),
      rem.Pairwise (· > ·) → (∀ i ∈ rem, i < nodes.length) →
      (∀ j, (hj : j < nodes.length) →
        jsStartsWith nodes[j].id marker = true → j ∈ rem) →
      ∀ n ∈ (updRemovePass nodes links rem).1, jsStartsWith n.id marker = false := by
  intro rem
  induction rem with
  | nil =>
    intro nodes links _ _ hcov n hn
    rw [updRemovePass] at hn
    rcases List.mem_iff_getElem.mp hn with ⟨j, hj, rfl⟩
    cases h : jsStartsWith nodes[j].id marker with
    | false => rfl
    | true => exact absurd (hcov j hj h) (List.not_mem_nil _)
  | cons idx tl ih =>
    intro nodes links hdesc hvalid hcov
    have hidx : idx < nodes.length := hvalid idx (List.mem_cons_self _ _)
    rw [updRemovePass]
    refine ih _ _ hdesc.of_cons
      (fun i hi => by
        rw [List.length_eraseIdx]
        have h1 : i < idx := List.rel_of_pairwise_cons hdesc hi
        simp [hidx]
        omega) ?_
    intro j hj hmk
    have hjlen : (nodes.eraseIdx idx).length ≤ nodes.length := by
      rw [List.length_eraseIdx]
      simp [hidx]
    rw [List.getElem_eraseIdx] at hmk
    split at hmk
    · -- j < idx : the node is the original one at j
      next hlt =>
      have := hcov j (by omega) hmk
      rcases List.mem_cons.mp this with rfl | htl
      · omega
      · exact htl
    · -- j ≥ idx : the node is the original one at j+1, which cannot be marked
      next hge =>
      have := hcov (j + 1) (by
        rw [List.length_eraseIdx] at hj
        simp [hidx] at hj
        omega) hmk
      rcases List.mem_cons.mp this with heq | htl
      · omega
      · have := List.rel_of_pairwise_cons hdesc htl
        omega

theorem updRemovePass_links_mem :
    ∀ (rem : List ℕ) (nodes : List GraphNode) (links : List GraphLink),
      (∀ i ∈ rem, i < nodes.length) → rem.Pairwise (· > ·) →
      ∀ l ∈ (updRemovePass nodes links rem).2,
        l ∈ links ∧ ∀ i ∈ rem,
          l.source ≠ (nodes.getD i dummyNode).id
            ∧ l.target ≠ (nodes.getD i dummyNode).id := by
  intro rem
  induction rem with
  | nil =>
    intro nodes links _ _ l hl
    exact ⟨hl, fun i hi => absurd hi (List.not_mem_nil _)⟩
  | cons idx tl ih =>
    intro nodes links hvalid hdesc l hl
    have hidx : idx < nodes.length := hvalid idx (List.mem_cons_self _ _)
    rw [updRemovePass] at hl
    obtain ⟨hmem, hrest⟩ := ih _ _
      (fun i hi => by
        rw [List.length_eraseIdx]
        have h1 : i < idx := List.rel_of_pairwise_cons hdesc hi
        simp [hidx]
        omega)
      hdesc.of_cons l hl
    have hfilt := List.mem_filter.mp hmem
    have hne : l.source ≠ (nodes.getD idx dummyNode).id
        ∧ l.target ≠ (nodes.getD idx dummyNode).id := by
      have := hfilt.2
      simp only [Bool.not_eq_true', Bool.or_eq_false_iff, decide_eq_false_iff_not]
        at this
      exact this
    refine ⟨hfilt.1, fun i hi => ?_⟩
    rcases List.mem_cons.mp hi with rfl | htl
    · exact hne
    · have h1 : i < idx := List.rel_of_pairwise_cons hdesc htl
      have := hrest i htl
      rwa [getD_eraseIdx_lt _ _ _ _ h1 hidx] at this

theorem updRemovePass_links_keep :
    ∀ (rem : List ℕ) (nodes : List GraphNode) (links : List GraphLink) (l : GraphLink),
      (∀ i ∈ rem, i < nodes.length) → rem.Pairwise (· > ·) → l ∈ links →
      (∀ i ∈ rem, l.source ≠ (nodes.getD i dummyNode).id
        ∧ l.target ≠ (nodes.getD i dummyNode).id) →
      l ∈ (updRemovePass nodes links rem).2 := by
  intro rem
  induction rem with
  | nil => intro nodes links l _ _ hl _; exact hl
  | cons idx tl ih =>
    intro nodes links l hvalid hdesc hl hno
    have hidx : idx < nodes.length := hvalid idx (List.mem_cons_self _ _)
    rw [updRemovePass]
    refine ih _ _ _
      (fun i hi => by
        rw [List.length_eraseIdx]
        have h1 : i < idx := List.rel_of_pairwise_cons hdesc hi
        simp [hidx]
        omega)
      hdesc.of_cons ?_ ?_
    · refine List.mem_filter.mpr ⟨hl, ?_⟩
      have h1 := hno idx (List.mem_cons_self _ _)
      simp only [Bool.not_eq_true', Bool.or_eq_false_iff, decide_eq_false_iff_not]
      exact h1
    · intro i hi
      have h1 : i < idx := List.rel_of_pairwise_cons hdesc hi
      rw [getD_eraseIdx_lt _ _ _ _ h1 hidx]
      exact hno i (List.mem_cons_of_mem _ hi)

theorem updRemovePass_countP :
    ∀ (rem : List ℕ) (nodes : List GraphNode) (links : List GraphLink)
      (p : GraphNode → Bool),
      (∀ i ∈ rem, i < nodes.length) → rem.Pairwise (· > ·) →
      (∀ i ∈ rem, p (nodes.getD i dummyNode) = false) →
      (updRemovePass nodes links rem).1.countP p = nodes.countP p := by
  intro rem
  induction rem with
  | nil => intro nodes links p _ _ _; rfl
  | cons idx tl ih =>
    intro nodes links p hvalid hdesc hp
    have hidx : idx < nodes.length := hvalid idx (List.mem_cons_self _ _)
    rw [updRemovePass, ih _ _ _
      (fun i hi => by
        rw [List.length_eraseIdx]
        have h1 : i < idx := List.rel_of_pairwise_cons hdesc hi
        simp [hidx]
        omega)
      hdesc.of_cons
      (fun i hi => by
        have h1 : i < idx := List.rel_of_pairwise_cons hdesc hi
        rw [getD_eraseIdx_lt _ _ _ _ h1 hidx]
        exact hp i (List.mem_cons_of_mem _ hi)),
      countP_eraseIdx_of_false _ _ _ _ hidx (hp idx (List.mem_cons_self _ _))]

/-! ## Supporting lemmas: the passes preserve edge closure -/

theorem updReplacePass_noDangling :
    ∀ (pairs : List (Article × ℕ)) (nodes : List GraphNode) (links : List GraphLink),
      (∀ pr ∈ pairs, pr.2 < nodes.length) →
      (∀ l ∈ links, l.source ∈ nodes.map GraphNode.id
        ∧ l.target ∈ nodes.map GraphNode.id) →
      ∀ l ∈ (updReplacePass nodes links pairs).2,
        l.source ∈ (updReplacePass nodes links pairs).1.map GraphNode.id
          ∧ l.target ∈ (updReplacePass nodes links pairs).1.map GraphNode.id := by
  intro pairs
  induction pairs with
  | nil => intro nodes links _ h l hl; exact h l hl
  | cons hd tl ih =>
    intro nodes links hvalid h l hl
    obtain ⟨a, idx⟩ := hd
    have hidx : idx < nodes.length := hvalid _ (List.mem_cons_self _ _)
    rw [updReplacePass] at hl ⊢
    refine ih _ _
      (fun pr hpr => by
        rw [List.length_set]
        exact hvalid pr (List.mem_cons_of_mem _ hpr)) ?_ l hl
    intro l' hl'
    rcases List.mem_map.mp hl' with ⟨l0, hl0, rfl⟩
    obtain ⟨hs, ht⟩ := h l0 hl0
    have hmemsub : ∀ s : String, s ∈ nodes.map GraphNode.id →
        (if s = (nodes.getD idx dummyNode).id
          then paperIdOf a else s)
          ∈ (nodes.set idx (realPaperNode a (nodes.getD idx dummyNode))).map
              GraphNode.id := by
      intro s hsm
      rw [List.map_set]
      by_cases hcase : s = (nodes.getD idx dummyNode).id
      · rw [if_pos hcase]
        refine List.mem_iff_getElem.mpr ⟨idx, ?_, ?_⟩
        · rw [List.length_set, List.length_map]
          exact hidx
        · exact List.getElem_set_self _
      · rw [if_neg hcase]
        rcases List.mem_iff_getElem.mp hsm with ⟨j, hj, rfl⟩
        have hjne : idx ≠ j := by
          intro heq
          subst heq
          apply hcase
          rw [List.getD_eq_getElem _ _ hidx, ← List.getElem_map GraphNode.id]
        refine List.mem_iff_getElem.mpr ⟨j, ?_, ?_⟩
        · rw [List.length_set]
          exact hj
        · exact List.getElem_set_ne hjne _
    exact ⟨hmemsub _ hs, hmemsub _ ht⟩

theorem updRemovePass_noDangling :
    ∀ (rem : List ℕ) (nodes : List GraphNode) (links : List GraphLink),
      (∀ i ∈ rem, i < nodes.length) → rem.Pairwise (· > ·) →
      (∀ l ∈ links, l.source ∈ nodes.map GraphNode.id
        ∧ l.target ∈ nodes.map GraphNode.id) →
      ∀ l ∈ (updRemovePass nodes links rem).2,
        l.source ∈ (updRemovePass nodes links rem).1.map GraphNode.id
          ∧ l.target ∈ (updRemovePass nodes links rem).1.map GraphNode.id := by
  intro rem
  induction rem with
  | nil => intro nodes links _ _ h l hl; exact h l hl
  | cons idx tl ih =>
    intro nodes links hvalid hdesc h l hl
    have hidx : idx < nodes.length := hvalid idx (List.mem_cons_self _ _)
    rw [updRemovePass] at hl ⊢
    refine ih _ _
      (fun i hi => by
        rw [List.length_eraseIdx]
        have h1 : i < idx := List.rel_of_pairwise_cons hdesc hi
        simp [hidx]
        omega)
      hdesc.of_cons ?_ l hl
    intro l' hl'
    have hfilt := List.mem_filter.mp hl'
    obtain ⟨hs, ht⟩ := h l' hfilt.1
    have hne : l'.source ≠ (nodes.getD idx dummyNode).id
        ∧ l'.target ≠ (nodes.getD idx dummyNode).id := by
      have := hfilt.2
      simp only [Bool.not_eq_true', Bool.or_eq_false_iff, decide_eq_false_iff_not]
        at this
      exact this
    have hmemsub : ∀ s : String, s ∈ nodes.map GraphNode.id →
        s ≠ (nodes.getD idx dummyNode).id →
        s ∈ (nodes.eraseIdx idx).map GraphNode.id := by
      intro s hsm hsne
      rcases List.mem_iff_getElem.mp hsm with ⟨j, hj, rfl⟩
      have hjne : j ≠ idx := by
        intro heq
        subst heq
        apply hsne
        rw [List.getD_eq_getElem _ _ hidx, ← List.getElem_map GraphNode.id]
      rw [map_eraseIdx']
      exact mem_eraseIdx_of_ne _ _ _ hj hjne
    exact ⟨hmemsub _ hs hne.1, hmemsub _ ht hne.2⟩

/-! ## Supporting lemmas: the update pipeline -/

theorem set_getElem_self' {α : Type _} (l : List α) (i : ℕ) (h : i < l.length) :
    l.set i l[i] = l := by
  apply List.ext_getElem?
  intro j
  rw [List.getElem?_set]
  by_cases hij : i = j
  · subst hij
    simp [h, List.getElem?_eq_getElem h]
  · simp [hij]

theorem findIdx?_prop {α : Type _} {p : α → Bool} {l : List α} {i : ℕ} (d : α)
    (h : l.findIdx? p = some i) : i < l.length ∧ p (l.getD i d) = true := by
  obtain ⟨hlt, hidx⟩ := List.findIdx?_eq_some_iff_findIdx_eq.mp h
  subst hidx
  exact ⟨hlt, by rw [List.getD_eq_getElem _ _ hlt]; exact List.findIdx_getElem⟩

theorem updateResearcherPapers_eq_pipeline (g : GraphData)
    (data : ScholarAuthorResponse) (name : String) (auth : ScholarAuthor)
    (arts : List Article) (hauth : data.author = some auth)
    (harts : data.articles = some arts) (hnn : name ≠ "") :
    updateResearcherPapers g data (some name)
      = .ok (updatePipeline
          (match g.nodes.findIdx? (fun n : GraphNode => n.id = "researcher-" ++ name) with
            | some i => g.nodes.set i
                (refreshResearcherNode (g.nodes.getD i dummyNode) auth
                  data.search_parameters)
            | none => g.nodes)
          g.links arts name) := by
  have h1 : jsTruthyStr (some name) = true := by simp [jsTruthyStr, hnn]
  rcases hidx : g.nodes.findIdx? (fun n : GraphNode => n.id = "researcher-" ++ name) with - | i
  · simp only [updateResearcherPapers, h1, if_true, Option.getD_some, hidx, hauth,
      harts]
  · simp only [updateResearcherPapers, h1, if_true, Option.getD_some, hidx, hauth,
      harts]

theorem refreshed_nodes_map_id (g : GraphData) (auth : ScholarAuthor)
    (sp : Option SearchParameters) (rid : String) :
    (match g.nodes.findIdx? (fun n : GraphNode => n.id = rid) with
      | some i => g.nodes.set i
          (refreshResearcherNode (g.nodes.getD i dummyNode) auth sp)
      | none => g.nodes).map GraphNode.id = g.nodes.map GraphNode.id := by
  rcases hidx : g.nodes.findIdx? (fun n : GraphNode => n.id = rid) with - | i
  · rfl
  · obtain ⟨hlt, -⟩ := findIdx?_prop dummyNode hidx
    rw [List.map_set]
    have hlt' : i < (g.nodes.map GraphNode.id).length := by
      rw [List.length_map]
      exact hlt
    have hid : (refreshResearcherNode (g.nodes.getD i dummyNode) auth sp).id
        = (g.nodes.map GraphNode.id)[i] := by
      rw [show (refreshResearcherNode (g.nodes.getD i dummyNode) auth sp).id
          = (g.nodes.getD i dummyNode).id from rfl, List.getD_eq_getElem _ _ hlt]
      exact (List.getElem_map _).symm
    rw [hid]
    exact set_getElem_self' _ _ (by rw [List.length_map]; exact hlt)

theorem refreshed_nodes_getD_of_marker (g : GraphData) (auth : ScholarAuthor)
    (sp : Option SearchParameters) (name : String) (j : ℕ)
    (hmk : jsStartsWith ((g.nodes.getD j dummyNode).id)
      ("placeholder-" ++ name ++ "-") = true) :
    (match g.nodes.findIdx? (fun n : GraphNode => n.id = "researcher-" ++ name) with
      | some i => g.nodes.set i
          (refreshResearcherNode (g.nodes.getD i dummyNode) auth sp)
      | none => g.nodes).getD j dummyNode = g.nodes.getD j dummyNode := by
  rcases hidx : g.nodes.findIdx? (fun n : GraphNode => n.id = "researcher-" ++ name) with - | i
  · rfl
  · obtain ⟨hlt, hp⟩ := findIdx?_prop dummyNode hidx
    have hpid : (g.nodes.getD i dummyNode).id = "researcher-" ++ name := by
      simpa using hp
    have hne : i ≠ j := by
      intro heq
      subst heq
      rw [hpid, String.append_assoc, researcher_id_not_marker] at hmk
      cases hmk
    exact getD_set_ne' _ _ _ hne

theorem mergeSortDesc_pairwise (l : List ℕ) (hnd : l.Nodup) :
    (l.mergeSort fun a b => decide (b ≤ a)).Pairwise (· > ·) := by
  have hsort := @List.sorted_mergeSort ℕ (fun a b : ℕ => decide (b ≤ a))
    (fun a b c hab hbc => by
      simp only [decide_eq_true_eq] at *
      omega)
    (fun a b => by
      simp only [Bool.or_eq_true, decide_eq_true_eq]
      omega) l
  have hnd' : (l.mergeSort fun a b => decide (b ≤ a)).Nodup :=
    (List.mergeSort_perm l _).symm.nodup hnd
  exact (hsort.and hnd').imp fun hab => by
    obtain ⟨h1, h2⟩ := hab
    simp only [decide_eq_true_eq] at h1
    omega

theorem updatePipeline_noDangling (nodes1 : List GraphNode) (links : List GraphLink)
    (arts : List Article) (name : String)
    (hclosed : ∀ l ∈ links, l.source ∈ nodes1.map GraphNode.id
      ∧ l.target ∈ nodes1.map GraphNode.id) :
    NoDangling (updatePipeline nodes1 links arts name) := by
  intro l hl
  simp only [updatePipeline, NoDangling, idsOf] at hl ⊢
  have hvalid_pairs : ∀ pr ∈ (arts.take
      (placeholderIndicesOf nodes1 ("placeholder-" ++ name ++ "-")).length).zip
        (placeholderIndicesOf nodes1 ("placeholder-" ++ name ++ "-")),
      pr.2 < nodes1.length := fun pr hpr =>
    ((phIdx_mem_iff _ _ _).mp (List.of_mem_zip hpr).2).1
  have hRclosed := updReplacePass_noDangling _ nodes1 links hvalid_pairs hclosed
  have hphnodup : (placeholderIndicesOf nodes1 ("placeholder-" ++ name ++ "-")).Nodup :=
    (phIdx_pairwise _ _).imp ne_of_lt
  have hdropnodup : ((placeholderIndicesOf nodes1
      ("placeholder-" ++ name ++ "-")).drop
      ((arts.take (placeholderIndicesOf nodes1
        ("placeholder-" ++ name ++ "-")).length).length)).Nodup :=
    (List.drop_sublist _ _).nodup hphnodup
  have hdesc := mergeSortDesc_pairwise _ hdropnodup
  have hremvalid : ∀ i ∈ (((placeholderIndicesOf nodes1
      ("placeholder-" ++ name ++ "-")).drop
      ((arts.take (placeholderIndicesOf nodes1
        ("placeholder-" ++ name ++ "-")).length).length)).mergeSort
        fun a b => decide (b ≤ a)),
      i < (updReplacePass nodes1 links
        ((arts.take (placeholderIndicesOf nodes1
          ("placeholder-" ++ name ++ "-")).length).zip
          (placeholderIndicesOf nodes1 ("placeholder-" ++ name ++ "-")))).1.length := by
    intro i hi
    rw [updReplacePass_length]
    have h1 := (List.mergeSort_perm _ _).mem_iff.mp hi
    have h2 := List.mem_of_mem_drop h1
    exact ((phIdx_mem_iff _ _ _).mp h2).1
  exact updRemovePass_noDangling _ _ _ hremvalid hdesc hRclosed l hl

theorem updateResearcherPapers_noDangling (g : GraphData)
    (data : ScholarAuthorResponse) (name : String) (auth : ScholarAuthor)
    (arts : List Article) (g' : GraphData) (hauth : data.author = some auth)
    (harts : data.articles = some arts) (hnn : name ≠ "") (hg : NoDangling g)
    (hok : updateResearcherPapers g data (some name) = .ok g') : NoDangling g' := by
  rw [updateResearcherPapers_eq_pipeline g data name auth arts hauth harts hnn] at hok
  injection hok with hok
  subst hok
  refine updatePipeline_noDangling _ _ _ _ ?_
  rw [refreshed_nodes_map_id]
  exact fun l hl => hg l hl

/-! ## C6: dangling edges -/

/-- C6 counterexample: `addResearcherPlaceholders` pushes the
`researcher → sourcePaperId` link without checking that a node with the
source id exists (graph-transformer.ts lines 531–545); with a ghost
source id the produced graph has a dangling edge. -/
theorem c6_counterexample_dangling_edge :
    ¬ NoDangling (addResearcherPlaceholders { nodes := [], links := [] } "X"
      (some "paper-ghost") 0) := by
  intro h
  have hm : ({ source := "researcher-X",
               target := "paper-ghost",
               type := LinkType.authored,
               value := some 2 } : GraphLink)
      ∈ (addResearcherPlaceholders { nodes := [], links := [] } "X"
        (some "paper-ghost") 0).links :=
    List.mem_cons_self _ _
  have h2 := (h _ hm).2
  have h3 : ("paper-ghost" : String) ∈ (["researcher-X"] : List String) := h2
  simp at h3

/-- C6 amended: `transformAuthorToGraph` always produces a dangling-free
graph, and the four mutators preserve dangling-freeness provided the
node ids they are given actually exist: `addMorePapers` requires the
`researcherId` argument to be a node, `addResearcherToGraph` and
`addResearcherPlaceholders` require a truthy `sourcePaperId` to name an
existing node, and `updateResearcherPapers` (including its surplus-
placeholder removal) needs no extra condition; with a nonexistent
`sourcePaperId` (or `researcherId`) the source pushes the link anyway
and a dangling edge results — nothing drops it. -/
theorem c6_amended_no_dangling (g : GraphData) (hg : NoDangling g) :
    (∀ (data : ScholarAuthorResponse) (mp : ℕ) (ico : Bool) (g' : GraphData),
        transformAuthorToGraph data mp ico = .ok g' → NoDangling g')
  ∧ (∀ (rid : String) (arts : List Article), rid ∈ idsOf g →
        NoDangling (addMorePapers g rid arts))
  ∧ (∀ (data : ScholarAuthorResponse) (spid : Option String) (mp : ℕ)
        (g' : GraphData),
        (jsTruthyStr spid = true → spid.getD "" ∈ idsOf g) →
        addResearcherToGraph g data spid mp = .ok g' → NoDangling g')
  ∧ (∀ (name : String) (spid : Option String) (count : ℕ),
        (jsTruthyStr spid = true → spid.getD "" ∈ idsOf g) →
        NoDangling (addResearcherPlaceholders g name spid count))
  ∧ (∀ (data : ScholarAuthorResponse) (name : String) (auth : ScholarAuthor)
        (arts : List Article) (g' : GraphData),
        data.author = some auth → data.articles = some arts → name ≠ "" →
        updateResearcherPapers g data (some name) = .ok g' → NoDangling g') :=
  ⟨fun data mp ico g' hok => transformAuthorToGraph_noDangling data mp ico g' hok,
   fun rid arts hrid => addMorePapers_noDangling g rid arts hg hrid,
   fun data spid mp g' hsp hok =>
     addResearcherToGraph_noDangling g data spid mp g' hg hsp hok,
   fun name spid count hsp =>
     addResearcherPlaceholders_noDangling g name spid count hg hsp,
   fun data name auth arts g' hauth harts hnn hok =>
     updateResearcherPapers_noDangling g data name auth arts g' hauth harts hnn hg
       hok⟩

/-- C6 amended, witness: all five operations applied to concrete inputs
over the one-researcher fixture graph. -/
theorem c6_amended_no_dangling_witness :
    NoDangling ((transformAuthorToGraph
        { author := some { name := "A" }, articles := some [{ title := "T" }] }
        10 false).toOption.getD { nodes := [], links := [] })
  ∧ NoDangling (addMorePapers witnessGraph "researcher-A" [{ title := "T" }])
  ∧ NoDangling ((addResearcherToGraph witnessGraph
        { author := some { name := "B" }, articles := some [] } none
        20).toOption.getD { nodes := [], links := [] })
  ∧ NoDangling (addResearcherPlaceholders witnessGraph "B" (some "researcher-A") 1)
  ∧ NoDangling ((updateResearcherPapers witnessGraph
        { author := some { name := "X" }, articles := some [{ title := "T" }] }
        (some "X")).toOption.getD { nodes := [], links := [] }) := by
  have hg : NoDangling witnessGraph := by
    intro l hl
    cases hl
  refine ⟨(c6_amended_no_dangling witnessGraph hg).1
      { author := some { name := "A" }, articles := some [{ title := "T" }] }
      10 false _ (by rfl),
    (c6_amended_no_dangling witnessGraph hg).2.1 "researcher-A" _ (by decide),
    (c6_amended_no_dangling witnessGraph hg).2.2.1
      { author := some { name := "B" }, articles := some [] }
      none 20 _ (by decide) (by rfl),
    (c6_amended_no_dangling witnessGraph hg).2.2.2.1 "B" (some "researcher-A") 1
      (by decide),
    (c6_amended_no_dangling witnessGraph hg).2.2.2.2
      { author := some { name := "X" }, articles := some [{ title := "T" }] }
      "X" { name := "X" } [{ title := "T" }] _
      rfl rfl (by decide) (by rfl)⟩

/-! ## C9 supporting lemmas: idempotent edge insertion -/

theorem pushSourceLink_count_preserved (links : List GraphLink) (rid s : String)
    (h : 1 ≤ edgeCountBetween links rid s) :
    pushSourceLinkIfMissing links rid (some s) = links := by
  by_cases hs : jsTruthyStr (some s) = true
  · have hex : (links.any fun l =>
        (l.source = rid && l.target = s) || (l.source = s && l.target = rid))
        = true := by
      rw [List.any_eq_true]
      unfold edgeCountBetween at h
      obtain ⟨l, hl⟩ := List.exists_mem_of_length_pos h
      have := List.mem_filter.mp hl
      exact ⟨l, this.1, this.2⟩
    simp only [pushSourceLinkIfMissing, hs, if_true, Option.getD_some, hex]
  · unfold pushSourceLinkIfMissing
    rw [if_neg hs]

theorem edgeCount_append_irrelevant (links : List GraphLink) (nl : GraphLink)
    (a b : String)
    (hno : ¬((nl.source = a ∧ nl.target = b) ∨ (nl.source = b ∧ nl.target = a))) :
    edgeCountBetween (links ++ [nl]) a b = edgeCountBetween links a b := by
  unfold edgeCountBetween
  rw [List.filter_append, List.length_append]
  have hcond : (decide (nl.source = a) && decide (nl.target = b)
      || decide (nl.source = b) && decide (nl.target = a)) = false := by
    simpa using hno
  have hsing : List.filter (fun l =>
      (l.source = a && l.target = b) || (l.source = b && l.target = a)) [nl] = [] := by
    simp only [List.filter, hcond]
  rw [hsing]
  rfl

theorem addResearcherPaperStep_edgeCount (rid : String) (pos : ℝ × ℝ) (tot : ℕ)
    (s : String) (st : GraphData) (p : ℕ × Article) :
    edgeCountBetween (addResearcherPaperStep rid pos tot (some s) st p).links rid s
      = edgeCountBetween st.links rid s := by
  by_cases hskip : (some s : Option String) = some (paperIdOf p.2)
  · simp [addResearcherPaperStep, hskip]
  · have hpid_ne : paperIdOf p.2 ≠ s := fun h => hskip (by rw [h])
    have hno : ¬((rid = rid ∧ paperIdOf p.2 = s) ∨
        (rid = s ∧ paperIdOf p.2 = rid)) := by
      rintro (⟨-, h2⟩ | ⟨h1, h2⟩)
      · exact hpid_ne h2
      · exact hpid_ne (h2.trans h1)
    by_cases hf : (st.nodes.find? (fun n => n.id = paperIdOf p.2)).isSome = true
    · by_cases hl : (st.links.any fun l =>
          (l.source = rid && l.target = paperIdOf p.2) ||
          (l.source = paperIdOf p.2 && l.target = rid)) = true
      · simp [addResearcherPaperStep, hskip, hf, hl]
      · simp only [addResearcherPaperStep, hskip, if_neg hskip, hf, if_true, hl,
          if_false, Bool.false_eq_true]
        exact edgeCount_append_irrelevant _ _ _ _ hno
    · simp only [addResearcherPaperStep, hskip, if_neg hskip, hf, if_false,
        Bool.false_eq_true]
      exact edgeCount_append_irrelevant _ _ _ _ hno

theorem applyAddedLinks_facts :
    ∀ (ls : List GraphLink) (els : List String), els.Nodup →
      (applyAddedLinks els ls).Nodup
        ∧ ∀ k, (k ∈ applyAddedLinks els ls ↔ k ∈ els ∨ k ∈ ls.map linkKeyOf) := by
  intro ls
  induction ls with
  | nil =>
    intro els h
    exact ⟨h, fun k => by simp [applyAddedLinks]⟩
  | cons l t ih =>
    intro els h
    by_cases hmem : linkKeyOf l ∈ els
    · have hstep : applyAddedLinks els (l :: t) = applyAddedLinks els t := by
        simp [applyAddedLinks, hmem]
      rw [hstep]
      obtain ⟨h1, h2⟩ := ih els h
      refine ⟨h1, fun k => ?_⟩
      rw [h2 k]
      simp only [List.map_cons, List.mem_cons]
      constructor
      · rintro (hk | hk)
        · exact Or.inl hk
        · exact Or.inr (Or.inr hk)
      · rintro (hk | hk | hk)
        · exact Or.inl hk
        · exact Or.inl (hk ▸ hmem)
        · exact Or.inr hk
    · have hstep : applyAddedLinks els (l :: t)
          = applyAddedLinks (els ++ [linkKeyOf l]) t := by
        simp [applyAddedLinks, hmem]
      rw [hstep]
      obtain ⟨h1, h2⟩ := ih (els ++ [linkKeyOf l])
        (nodup_append_singleton hmem h)
      refine ⟨h1, fun k => ?_⟩
      rw [h2 k]
      simp only [List.mem_append, List.mem_singleton, List.map_cons, List.mem_cons]
      tauto

theorem edgeCount_append_zero (links extra : List GraphLink) (a b : String)
    (hno : ∀ l ∈ extra,
      ¬((l.source = a ∧ l.target = b) ∨ (l.source = b ∧ l.target = a))) :
    edgeCountBetween (links ++ extra) a b = edgeCountBetween links a b := by
  unfold edgeCountBetween
  rw [List.filter_append, List.length_append]
  have hnil : (extra.filter fun l =>
      (l.source = a && l.target = b) || (l.source = b && l.target = a)) = [] := by
    rw [List.filter_eq_nil_iff]
    intro l hl
    simpa using hno l hl
  rw [hnil]
  rfl

/-! ## C9: edge insertion is idempotent under the (source, target) key -/

/-- C9: an edge between a researcher and a source paper is only (re)added
when no edge between the two ids exists in either orientation, so a
graph holding exactly one such edge still holds exactly one after
`addResearcherToGraph` (whose paper loop also skips the source paper) or
`addResearcherPlaceholders`; and the renderer's `addedLinks` loop adds
an edge element only when no element with the `"source-target"` id
exists, keeping element ids distinct — so at most one edge per key. -/
theorem c9_edge_insertion_idempotent :
    (∀ (g : GraphData) (data : ScholarAuthorResponse) (auth : ScholarAuthor)
        (s : String) (mp : ℕ) (g' : GraphData),
        data.author = some auth →
        edgeCountBetween g.links ("researcher-" ++ auth.name) s = 1 →
        addResearcherToGraph g data (some s) mp = .ok g' →
        edgeCountBetween g'.links ("researcher-" ++ auth.name) s = 1)
  ∧ (∀ (g : GraphData) (name s : String) (count : ℕ),
        jsStartsWith s ("placeholder-" ++ name ++ "-") = false →
        edgeCountBetween g.links ("researcher-" ++ name) s = 1 →
        edgeCountBetween (addResearcherPlaceholders g name (some s) count).links
          ("researcher-" ++ name) s = 1)
  ∧ (∀ (elementIds : List String) (addedLinks : List GraphLink),
        elementIds.Nodup →
        (applyAddedLinks elementIds addedLinks).Nodup
          ∧ ∀ l ∈ addedLinks,
              (applyAddedLinks elementIds addedLinks).count (linkKeyOf l) = 1) := by
  refine ⟨?_, ?_, ?_⟩
  · intro g data auth s mp g' hauth hcount hok
    rcases harts : data.articles with - | arts
    · simp only [addResearcherToGraph, hauth, harts] at hok
      cases hok
    · simp only [addResearcherToGraph, hauth, harts, Except.ok.injEq] at hok
      subst hok
      refine foldl_invariant _
        (fun st : GraphData =>
          edgeCountBetween st.links ("researcher-" ++ auth.name) s = 1)
        (fun st p h => by
          show edgeCountBetween (addResearcherPaperStep ("researcher-" ++ auth.name)
            (researcherPlacement g.nodes (some s)) (List.take mp arts).length (some s)
            st p).links ("researcher-" ++ auth.name) s = 1
          rw [addResearcherPaperStep_edgeCount]
          exact h) _ _ ?_
      show edgeCountBetween
        (pushSourceLinkIfMissing g.links ("researcher-" ++ auth.name) (some s)) _ _ = 1
      rw [pushSourceLink_count_preserved _ _ _ (le_of_eq hcount.symm)]
      exact hcount
  · intro g name s count hmk hcount
    have hridmk : jsStartsWith ("researcher-" ++ name)
        ("placeholder-" ++ name ++ "-") = false := by
      rw [String.append_assoc]
      exact researcher_id_not_marker _ _
    show edgeCountBetween
      (pushSourceLinkIfMissing g.links ("researcher-" ++ name) (some s)
        ++ (List.range count).map fun i =>
          { source := "researcher-" ++ name, target := placeholderIdOf name i,
            type := .authored, value := some 1 }) _ _ = 1
    rw [pushSourceLink_count_preserved _ _ _ (le_of_eq hcount.symm),
      edgeCount_append_zero]
    · exact hcount
    · intro l hl
      rcases List.mem_map.mp hl with ⟨i, -, rfl⟩
      have hph : jsStartsWith (placeholderIdOf name i)
          ("placeholder-" ++ name ++ "-") = true :=
        jsStartsWith_self_append _ _
      rintro (⟨-, h2⟩ | ⟨-, h2⟩)
      · exact ne_of_marker_mismatch hph hmk h2
      · exact ne_of_marker_mismatch hph hridmk h2
  · intro els ls h
    obtain ⟨h1, h2⟩ := applyAddedLinks_facts ls els h
    exact ⟨h1, fun l hl => List.count_eq_one_of_mem h1
      ((h2 _).mpr (Or.inr (List.mem_map_of_mem _ hl)))⟩

/-- C9 witness: a graph already holding the `researcher-A ↔ paper-p` edge
keeps exactly one such edge through both operations, and the renderer
loop given an already-present link id keeps one element. -/
theorem c9_edge_insertion_idempotent_witness :
    edgeCountBetween ((addResearcherToGraph
        { nodes := [],
          links := [{ source := "researcher-A", target := "paper-p",
                      type := .authored, value := some 2 }] }
        { author := some { name := "A" }, articles := some [] } (some "paper-p")
        20).toOption.getD { nodes := [], links := [] }).links
        "researcher-A" "paper-p" = 1
  ∧ edgeCountBetween (addResearcherPlaceholders
        { nodes := [],
          links := [{ source := "researcher-A", target := "paper-p",
                      type := .authored, value := some 2 }] }
        "A" (some "paper-p") 1).links "researcher-A" "paper-p" = 1
  ∧ ((applyAddedLinks ["a-b"]
        [{ source := "a", target := "b", type := .cited, value := none }]).Nodup
      ∧ ∀ l ∈ ([{ source := "a", target := "b", type := LinkType.cited, value := none }] :
            List GraphLink),
          (applyAddedLinks ["a-b"]
            [{ source := "a", target := "b", type := .cited, value := none }]).count
              (linkKeyOf l) = 1) := by
  refine ⟨c9_edge_insertion_idempotent.1
      { nodes := [],
        links := [{ source := "researcher-A", target := "paper-p",
                    type := .authored, value := some 2 }] }
      { author := some { name := "A" }, articles := some [] }
      { name := "A" } "paper-p" 20 _ rfl (by decide) (by rfl),
    c9_edge_insertion_idempotent.2.1
      { nodes := [],
        links := [{ source := "researcher-A", target := "paper-p",
                    type := .authored, value := some 2 }] }
      "A" "paper-p" 1 (by decide) (by decide),
    c9_edge_insertion_idempotent.2.2 ["a-b"] _ (by decide)⟩

/-! ## C2: placeholder accounting -/

/-- C2: with `P` placeholders for the researcher and `R` articles in the
payload, `updateResearcherPapers` positionally matches the first
`min(R, P)` placeholders to articles: afterwards no placeholder for that
researcher remains, exactly `min(R, P)` nodes carry ids derived from the
payload's articles (so `R` when `R < P`, and `P` — excess articles
dropped — when `R > P`), `P - min(R, P)` surplus placeholder nodes are
gone from the node count, and no remaining link touches a removed
placeholder's id. -/
theorem c2_placeholder_accounting (g : GraphData) (data : ScholarAuthorResponse)
    (name : String) (auth : ScholarAuthor) (arts : List Article) (g' : GraphData)
    (hauth : data.author = some auth) (harts : data.articles = some arts)
    (hnn : name ≠ "")
    (hfresh : ∀ a ∈ arts, paperIdOf a ∉ idsOf g)
    (hok : updateResearcherPapers g data (some name) = .ok g') :
    (∀ n ∈ g'.nodes, jsStartsWith n.id ("placeholder-" ++ name ++ "-") = false)
  ∧ g'.nodes.length = g.nodes.length
      - ((placeholderIndicesOf g.nodes ("placeholder-" ++ name ++ "-")).length
          - min arts.length
              (placeholderIndicesOf g.nodes ("placeholder-" ++ name ++ "-")).length)
  ∧ g'.nodes.countP (fun n => decide (∃ a ∈ arts, n.id = paperIdOf a))
      = min arts.length
          (placeholderIndicesOf g.nodes ("placeholder-" ++ name ++ "-")).length
  ∧ (∀ l ∈ g'.links,
      ∀ i ∈ (placeholderIndicesOf g.nodes ("placeholder-" ++ name ++ "-")).drop
          (min arts.length
            (placeholderIndicesOf g.nodes ("placeholder-" ++ name ++ "-")).length),
        l.source ≠ (g.nodes.getD i dummyNode).id
          ∧ l.target ≠ (g.nodes.getD i dummyNode).id) := by
  rw [updateResearcherPapers_eq_pipeline g data name auth arts hauth harts hnn] at hok
  injection hok with hok
  subst hok
  have hids := refreshed_nodes_map_id g auth data.search_parameters
    ("researcher-" ++ name)
  set nodes1 := (match g.nodes.findIdx?
      (fun n : GraphNode => n.id = "researcher-" ++ name) with
    | some i => g.nodes.set i
        (refreshResearcherNode (g.nodes.getD i dummyNode) auth
          data.search_parameters)
    | none => g.nodes) with hn1def
  have hlen1 : nodes1.length = g.nodes.length := by
    have h2 := congrArg List.length hids
    simpa using h2
  have hph : placeholderIndicesOf nodes1 ("placeholder-" ++ name ++ "-")
      = placeholderIndicesOf g.nodes ("placeholder-" ++ name ++ "-") :=
    phIdx_congr_ids _ _ _ hids
  simp only [updatePipeline, hph]
  -- abbreviations
  set marker := "placeholder-" ++ name ++ "-" with hmarkerdef
  set phIdx := placeholderIndicesOf g.nodes marker with hphdef
  set papers := arts.take phIdx.length with hpapersdef
  set pairs := papers.zip phIdx with hpairsdef
  set rem := (phIdx.drop papers.length).mergeSort (fun a b => decide (b ≤ a))
    with hremdef
  have hmlen : papers.length = min arts.length phIdx.length := by
    rw [hpapersdef, List.length_take]
    omega
  have hphnodes1 : ∀ i ∈ phIdx, i < nodes1.length
      ∧ jsStartsWith (nodes1.getD i dummyNode).id marker = true := by
    intro i hi
    rw [← hph] at hi
    exact (phIdx_mem_iff _ _ _).mp hi
  have hM : pairs.map Prod.snd = phIdx.take papers.length := by
    rw [hpairsdef, zip_map_snd_take]
  have hMnodup : (pairs.map Prod.snd).Nodup := by
    rw [hM]
    exact ((phIdx_pairwise g.nodes marker).take.imp ne_of_lt)
  have hvalid_pairs : ∀ pr ∈ pairs, pr.2 < nodes1.length := by
    intro pr hpr
    exact (hphnodes1 pr.2 (List.of_mem_zip hpr).2).1
  have hpairs_mem_phIdx : ∀ pr ∈ pairs, pr.2 ∈ phIdx := fun pr hpr =>
    (List.of_mem_zip hpr).2
  have hpairs_art : ∀ pr ∈ pairs, pr.1 ∈ arts := fun pr hpr =>
    (List.take_sublist _ _).subset (List.of_mem_zip hpr).1
  -- untouched ids are the original ids
  have hid1 : ∀ i, (nodes1.getD i dummyNode).id = (g.nodes.getD i dummyNode).id := by
    intro i
    rw [getD_id, getD_id, hids]
  -- M membership characterization
  have hmemM : ∀ j, j ∈ pairs.map Prod.snd ↔ ∃ pr ∈ pairs, pr.2 = j := by
    intro j
    simp [List.mem_map]
  -- replaced-state facts
  have hRlen : (updReplacePass nodes1 g.links pairs).1.length = nodes1.length :=
    updReplacePass_length pairs nodes1 g.links
  have hRuntouched : ∀ j, j ∉ pairs.map Prod.snd →
      (updReplacePass nodes1 g.links pairs).1.getD j dummyNode
        = nodes1.getD j dummyNode :=
    fun j hj => updReplacePass_untouched pairs nodes1 g.links j hj
  have hRmatched : ∀ pr ∈ pairs,
      (updReplacePass nodes1 g.links pairs).1.getD pr.2 dummyNode
        = realPaperNode pr.1 (nodes1.getD pr.2 dummyNode) :=
    updReplacePass_matched pairs nodes1 g.links hvalid_pairs hMnodup
  -- rem facts
  have hremperm : rem.Perm (phIdx.drop papers.length) := List.mergeSort_perm _ _
  have hdropnodup : (phIdx.drop papers.length).Nodup :=
    (List.drop_sublist _ _).nodup ((phIdx_pairwise g.nodes marker).imp ne_of_lt)
  have hdesc : rem.Pairwise (· > ·) := mergeSortDesc_pairwise _ hdropnodup
  have hrem_mem : ∀ i, i ∈ rem ↔ i ∈ phIdx.drop papers.length := fun i =>
    hremperm.mem_iff
  have hrem_not_M : ∀ i ∈ rem, i ∉ pairs.map Prod.snd := by
    intro i hi hiM
    rw [hM] at hiM
    exact List.disjoint_take_drop
      ((phIdx_pairwise g.nodes marker).imp ne_of_lt) le_rfl hiM
      ((hrem_mem i).mp hi)
  have hrem_phIdx : ∀ i ∈ rem, i ∈ phIdx := fun i hi =>
    List.mem_of_mem_drop ((hrem_mem i).mp hi)
  have hremvalid : ∀ i ∈ rem, i < (updReplacePass nodes1 g.links pairs).1.length := by
    intro i hi
    rw [hRlen]
    exact (hphnodes1 i (hrem_phIdx i hi)).1
  -- the id at an untouched position is fresh for the payload
  have hfresh1 : ∀ i, i < nodes1.length → i ∉ pairs.map Prod.snd →
      (decide (∃ a ∈ arts,
        ((updReplacePass nodes1 g.links pairs).1.getD i dummyNode).id
          = paperIdOf a)) = false := by
    intro i hilt hiM
    rw [hRuntouched i hiM]
    have hmem : (nodes1.getD i dummyNode).id ∈ idsOf g := by
      rw [hid1, getD_id]
      show (g.nodes.map GraphNode.id).getD i "" ∈ idsOf g
      rw [List.getD_eq_getElem _ _ (by rw [List.length_map]; omega)]
      exact List.getElem_mem _
    simp only [decide_eq_false_iff_not, not_exists]
    intro a ha
    exact hfresh a ha.1 (ha.2 ▸ hmem)
  -- (1) no placeholders remain
  have hnomark : ∀ n ∈ (updRemovePass (updReplacePass nodes1 g.links pairs).1
      (updReplacePass nodes1 g.links pairs).2 rem).1,
      jsStartsWith n.id marker = false := by
    refine updRemovePass_no_marker marker rem _ _ hdesc hremvalid ?_
    intro j hj hmk
    rw [← List.getD_eq_getElem _ dummyNode hj] at hmk
    by_cases hjM : j ∈ pairs.map Prod.snd
    · exfalso
      obtain ⟨pr, hpr, rfl⟩ := List.mem_map.mp hjM
      rw [hRmatched pr hpr] at hmk
      rw [show (realPaperNode pr.1 (nodes1.getD pr.2 dummyNode)).id
          = "paper-" ++ paperKey pr.1 from rfl] at hmk
      rw [hmarkerdef, String.append_assoc, paper_id_not_marker] at hmk
      cases hmk
    · rw [hRuntouched j hjM] at hmk
      have hjph : j ∈ phIdx := by
        rw [← hph]
        refine (phIdx_mem_iff _ _ _).mpr ⟨?_, hmk⟩
        rw [← hRlen]
        exact hj
      have : j ∈ phIdx.take papers.length ∨ j ∈ phIdx.drop papers.length := by
        rw [← List.mem_append, List.take_append_drop]
        exact hjph
      rcases this with htake | hdrop

      · exact absurd (hM ▸ htake) hjM
      · exact (hrem_mem j).mpr hdrop
  refine ⟨fun n hn => hnomark n hn, ?_, ?_, ?_⟩
  · -- (2) node count
    rw [updRemovePass_length rem _ _ hremvalid hdesc, hRlen, hlen1,
      hremperm.length_eq, List.length_drop]
    omega
  · -- (3) exactly min(R, P) payload-derived nodes
    rw [updRemovePass_countP rem _ _ _ hremvalid hdesc ?hrem_false]
    case hrem_false =>
      intro i hi
      exact hfresh1 i (by rw [← hRlen]; exact hremvalid i hi) (hrem_not_M i hi)
    rw [countP_eq_range _ dummyNode, hRlen]
    have hcongr : ∀ i ∈ List.range nodes1.length,
        (decide (∃ a ∈ arts,
          ((updReplacePass nodes1 g.links pairs).1.getD i dummyNode).id
            = paperIdOf a))
        = decide (i ∈ pairs.map Prod.snd) := by
      intro i hi
      have hilt : i < nodes1.length := by
        rw [List.mem_range] at hi
        exact hi
      by_cases hiM : i ∈ pairs.map Prod.snd
      · obtain ⟨pr, hpr, rfl⟩ := List.mem_map.mp hiM
        rw [hRmatched pr hpr]
        have : (decide (∃ a ∈ arts,
            (realPaperNode pr.1 (nodes1.getD pr.2 dummyNode)).id = paperIdOf a))
            = true := by
          simp only [decide_eq_true_eq]
          exact ⟨pr.1, hpairs_art pr hpr, rfl⟩
        rw [this, eq_comm, decide_eq_true_eq]
        exact List.mem_map_of_mem _ hpr
      · rw [hfresh1 i hilt hiM, eq_comm, decide_eq_false_iff_not]
        exact hiM
    rw [List.filter_congr hcongr]
    rw [length_filter_range_mem _ _ (by
        rw [hM]
        exact (phIdx_pairwise g.nodes marker).take) (by
        intro i hiM
        obtain ⟨pr, hpr, rfl⟩ := List.mem_map.mp hiM
        exact hvalid_pairs pr hpr)]
    rw [hM, List.length_take, hmlen]
    omega
  · -- (4) links of removed placeholders are gone
    intro l hl i hidrop
    have hidrop' : i ∈ phIdx.drop papers.length := by
      rw [hmlen]
      exact hidrop
    have hirem : i ∈ rem := (hrem_mem i).mpr hidrop'
    have h2 := (updRemovePass_links_mem rem _ _ hremvalid hdesc l hl).2 i hirem
    rw [hRuntouched i (hrem_not_M i hirem), hid1] at h2
    exact h2

/-- C3: for the `k`-th positional match (any `k < min(R, P)`), the node left
at the matched placeholder's index is exactly the real paper node built from
the `k`-th article and the placeholder as it stood before replacement: same
`x`, same `y`, and metadata carrying over the placeholder's `layoutDistance`
and `initialAngle`. -/
theorem c3_position_inheritance (g : GraphData) (data : ScholarAuthorResponse)
    (name : String) (auth : ScholarAuthor) (arts : List Article) (g' : GraphData)
    (k : ℕ)
    (hauth : data.author = some auth) (harts : data.articles = some arts)
    (hnn : name ≠ "")
    (hk : k < min arts.length
      (placeholderIndicesOf g.nodes ("placeholder-" ++ name ++ "-")).length)
    (hok : updateResearcherPapers g data (some name) = .ok g') :
    g'.nodes.getD
        ((placeholderIndicesOf g.nodes ("placeholder-" ++ name ++ "-")).getD k 0)
        dummyNode
      = realPaperNode (arts.getD k dummyArticle)
          (g.nodes.getD
            ((placeholderIndicesOf g.nodes ("placeholder-" ++ name ++ "-")).getD k 0)
            dummyNode)
  ∧ (g'.nodes.getD
        ((placeholderIndicesOf g.nodes ("placeholder-" ++ name ++ "-")).getD k 0)
        dummyNode).x
      = (g.nodes.getD
          ((placeholderIndicesOf g.nodes ("placeholder-" ++ name ++ "-")).getD k 0)
          dummyNode).x
  ∧ (g'.nodes.getD
        ((placeholderIndicesOf g.nodes ("placeholder-" ++ name ++ "-")).getD k 0)
        dummyNode).y
      = (g.nodes.getD
          ((placeholderIndicesOf g.nodes ("placeholder-" ++ name ++ "-")).getD k 0)
          dummyNode).y
  ∧ (g'.nodes.getD
        ((placeholderIndicesOf g.nodes ("placeholder-" ++ name ++ "-")).getD k 0)
        dummyNode).metadata.bind Metadata.layoutDistance
      = (g.nodes.getD
          ((placeholderIndicesOf g.nodes ("placeholder-" ++ name ++ "-")).getD k 0)
          dummyNode).metadata.bind Metadata.layoutDistance
  ∧ (g'.nodes.getD
        ((placeholderIndicesOf g.nodes ("placeholder-" ++ name ++ "-")).getD k 0)
        dummyNode).metadata.bind Metadata.initialAngle
      = (g.nodes.getD
          ((placeholderIndicesOf g.nodes ("placeholder-" ++ name ++ "-")).getD k 0)
          dummyNode).metadata.bind Metadata.initialAngle := by
  rw [updateResearcherPapers_eq_pipeline g data name auth arts hauth harts hnn] at hok
  injection hok with hok
  subst hok
  have hids := refreshed_nodes_map_id g auth data.search_parameters
    ("researcher-" ++ name)
  have hrefresh := refreshed_nodes_getD_of_marker g auth data.search_parameters name
  set nodes1 := (match g.nodes.findIdx?
      (fun n : GraphNode => n.id = "researcher-" ++ name) with
    | some i => g.nodes.set i
        (refreshResearcherNode (g.nodes.getD i dummyNode) auth
          data.search_parameters)
    | none => g.nodes) with hn1def
  have hph : placeholderIndicesOf nodes1 ("placeholder-" ++ name ++ "-")
      = placeholderIndicesOf g.nodes ("placeholder-" ++ name ++ "-") :=
    phIdx_congr_ids _ _ _ hids
  simp only [updatePipeline, hph]
  set marker := "placeholder-" ++ name ++ "-" with hmarkerdef
  set phIdx := placeholderIndicesOf g.nodes marker with hphdef
  set papers := arts.take phIdx.length with hpapersdef
  set pairs := papers.zip phIdx with hpairsdef
  set rem := (phIdx.drop papers.length).mergeSort (fun a b => decide (b ≤ a))
    with hremdef
  have hklt : k < phIdx.length := by omega
  have hka : k < arts.length := by omega
  have hkm : k < papers.length := by
    rw [hpapersdef, List.length_take]
    omega
  have hkp : k < pairs.length := by
    rw [hpairsdef, List.length_zip]
    omega
  have hi_eq : phIdx.getD k 0 = phIdx[k] := List.getD_eq_getElem _ _ hklt
  have hphnodes1 : ∀ i ∈ phIdx, i < nodes1.length
      ∧ jsStartsWith (nodes1.getD i dummyNode).id marker = true := by
    intro i hi
    rw [← hph] at hi
    exact (phIdx_mem_iff _ _ _).mp hi
  have hMnodup : (pairs.map Prod.snd).Nodup := by
    rw [hpairsdef, zip_map_snd_take]
    exact ((phIdx_pairwise g.nodes marker).take.imp ne_of_lt)
  have hvalid_pairs : ∀ pr ∈ pairs, pr.2 < nodes1.length := by
    intro pr hpr
    exact (hphnodes1 pr.2 (List.of_mem_zip hpr).2).1
  have hpair : pairs[k] = (papers[k], phIdx[k]) := by
    exact List.getElem_zip
  have hrepl := updReplacePass_matched pairs nodes1 g.links hvalid_pairs hMnodup
    pairs[k] (List.getElem_mem hkp)
  simp only [hpair] at hrepl
  have hmk : jsStartsWith (g.nodes.getD (phIdx[k]) dummyNode).id marker = true := by
    have hmem : phIdx[k] ∈ placeholderIndicesOf g.nodes marker := by
      exact List.getElem_mem hklt
    exact ((phIdx_mem_iff g.nodes marker (phIdx[k])).mp hmem).2
  have hn1ik : nodes1.getD (phIdx[k]) dummyNode = g.nodes.getD (phIdx[k]) dummyNode :=
    hrefresh _ hmk
  have hpapk : papers[k] = arts.getD k dummyArticle := by
    rw [List.getD_eq_getElem arts dummyArticle hka]
    exact List.getElem_take arts
  rw [hpapk, hn1ik] at hrepl
  have hdropnodup : (phIdx.drop papers.length).Nodup :=
    (List.drop_sublist _ _).nodup ((phIdx_pairwise g.nodes marker).imp ne_of_lt)
  have hdesc : rem.Pairwise (· > ·) := mergeSortDesc_pairwise _ hdropnodup
  have hremvalid : ∀ i ∈ rem, i < (updReplacePass nodes1 g.links pairs).1.length := by
    intro i hi
    rw [updReplacePass_length pairs nodes1 g.links]
    have hi2 : i ∈ phIdx.drop papers.length := (List.mergeSort_perm _ _).mem_iff.mp hi
    exact (hphnodes1 i (List.mem_of_mem_drop hi2)).1
  have hgt : ∀ r ∈ rem, phIdx[k] < r := by
    intro r hr
    have hr2 : r ∈ phIdx.drop papers.length := (List.mergeSort_perm _ _).mem_iff.mp hr
    obtain ⟨t, ht, hrt⟩ := List.mem_iff_getElem.mp hr2
    have htlen : papers.length + t < phIdx.length := by
      rw [List.length_drop] at ht
      omega
    have hidx2 : phIdx[papers.length + t] = r := by
      rw [← hrt]
      exact (List.getElem_drop phIdx).symm
    rw [← hidx2]
    exact List.pairwise_iff_getElem.mp (phIdx_pairwise g.nodes marker) k
      (papers.length + t) hklt htlen (by omega)
  have hfinal := updRemovePass_getD_lt rem (updReplacePass nodes1 g.links pairs).1
    (updReplacePass nodes1 g.links pairs).2 (phIdx[k]) hremvalid hdesc hgt
  have h1 : (updRemovePass (updReplacePass nodes1 g.links pairs).1
        (updReplacePass nodes1 g.links pairs).2 rem).1.getD (phIdx.getD k 0) dummyNode
      = realPaperNode (arts.getD k dummyArticle)
          (g.nodes.getD (phIdx.getD k 0) dummyNode) := by
    rw [hi_eq, hfinal, hrepl]
  exact ⟨h1, by rw [h1]; rfl, by rw [h1]; rfl, by rw [h1]; rfl, by rw [h1]; rfl⟩

/-- C4 counterexample: a link tying the matched placeholder to the surplus
placeholder is first id-rewritten, but then dropped by the
surplus-placeholder removal, so it does not survive `updateResearcherPapers`
even though its source equalled the old placeholder id. -/
theorem c4_counterexample_dropped_link :
    cxGraph.links = [{ source := "placeholder-X-0", target := "placeholder-X-1",
                       type := .authored }]
  ∧ (cxGraph.nodes.getD
      ((placeholderIndicesOf cxGraph.nodes ("placeholder-" ++ "X" ++ "-")).getD 0 0)
      dummyNode).id = "placeholder-X-0"
  ∧ ((updateResearcherPapers cxGraph phData (some "X")).toOption.getD
      { nodes := [], links := [] }).links = [] := by
  refine ⟨rfl, by decide, ?_⟩
  rw [updateResearcherPapers_eq_pipeline cxGraph phData "X" { name := "X" }
    [{ title := "T" }] rfl rfl (by decide)]
  have hids := refreshed_nodes_map_id cxGraph { name := "X" }
    phData.search_parameters ("researcher-" ++ "X")
  have hrefresh := refreshed_nodes_getD_of_marker cxGraph { name := "X" }
    phData.search_parameters "X"
  set nodes1 := (match cxGraph.nodes.findIdx?
      (fun n : GraphNode => n.id = "researcher-" ++ "X") with
    | some i => cxGraph.nodes.set i
        (refreshResearcherNode (cxGraph.nodes.getD i dummyNode) { name := "X" }
          phData.search_parameters)
    | none => cxGraph.nodes) with hn1def
  have hphval : placeholderIndicesOf nodes1 ("placeholder-" ++ "X" ++ "-")
      = [1, 2] := by
    rw [phIdx_congr_ids nodes1 cxGraph.nodes _ hids]
    decide
  have h1id : nodes1.getD 1 dummyNode = cxGraph.nodes.getD 1 dummyNode :=
    hrefresh 1 (by decide)
  have h2id : nodes1.getD 2 dummyNode = cxGraph.nodes.getD 2 dummyNode :=
    hrefresh 2 (by decide)
  show (updatePipeline nodes1 cxGraph.links [{ title := "T" }] "X").links = []
  simp only [updatePipeline, hphval]
  show (updRemovePass
      (updReplacePass nodes1 cxGraph.links [({ title := "T" }, 1)]).1
      (updReplacePass nodes1 cxGraph.links [({ title := "T" }, 1)]).2
      (([2] : List ℕ).mergeSort fun a b => decide (b ≤ a))).2 = []
  rw [List.mergeSort_singleton]
  have hrepl : updReplacePass nodes1 cxGraph.links [({ title := "T" }, 1)]
      = (nodes1.set 1 (realPaperNode { title := "T" } (nodes1.getD 1 dummyNode)),
         cxGraph.links.map (rewriteLink ((nodes1.getD 1 dummyNode).id)
           (paperIdOf { title := "T" }))) := rfl
  have hrm : ∀ (ns : List GraphNode) (ls : List GraphLink),
      (updRemovePass ns ls [2]).2
        = ls.filter fun l => !(decide (l.source = (ns.getD 2 dummyNode).id)
            || decide (l.target = (ns.getD 2 dummyNode).id)) := fun ns ls => rfl
  rw [hrepl, hrm, getD_set_ne' _ _ _ (by omega : (1 : ℕ) ≠ 2), h2id, h1id]
  rfl

/-- C4 (amended): for the `k`-th positional match, every payload link kept by
the update whose source or target equals the old placeholder id is rewritten
endpoint-wise to the new paper id and survives, provided node ids are
pairwise distinct on the placeholder positions and the link's other endpoint
is not itself one of the researcher's placeholders; a link tying the matched
placeholder to a removed surplus placeholder is rewritten and then dropped
by the removal step. -/
theorem c4_link_id_rewrite (g : GraphData) (data : ScholarAuthorResponse)
    (name : String) (auth : ScholarAuthor) (arts : List Article) (g' : GraphData)
    (k : ℕ) (l : GraphLink)
    (hauth : data.author = some auth) (harts : data.articles = some arts)
    (hnn : name ≠ "")
    (hk : k < min arts.length
      (placeholderIndicesOf g.nodes ("placeholder-" ++ name ++ "-")).length)
    (hdistinct : ∀ i ∈ placeholderIndicesOf g.nodes ("placeholder-" ++ name ++ "-"),
      ∀ j ∈ placeholderIndicesOf g.nodes ("placeholder-" ++ name ++ "-"),
      i ≠ j → (g.nodes.getD i dummyNode).id ≠ (g.nodes.getD j dummyNode).id)
    (hl : l ∈ g.links)
    (hsrc : l.source = (g.nodes.getD
        ((placeholderIndicesOf g.nodes ("placeholder-" ++ name ++ "-")).getD k 0)
        dummyNode).id
      ∨ jsStartsWith l.source ("placeholder-" ++ name ++ "-") = false)
    (htgt : l.target = (g.nodes.getD
        ((placeholderIndicesOf g.nodes ("placeholder-" ++ name ++ "-")).getD k 0)
        dummyNode).id
      ∨ jsStartsWith l.target ("placeholder-" ++ name ++ "-") = false)
    (hok : updateResearcherPapers g data (some name) = .ok g') :
    rewriteLink
      (g.nodes.getD
        ((placeholderIndicesOf g.nodes ("placeholder-" ++ name ++ "-")).getD k 0)
        dummyNode).id
      (paperIdOf (arts.getD k dummyArticle)) l ∈ g'.links := by
  rw [updateResearcherPapers_eq_pipeline g data name auth arts hauth harts hnn] at hok
  injection hok with hok
  subst hok
  have hids := refreshed_nodes_map_id g auth data.search_parameters
    ("researcher-" ++ name)
  have hrefresh := refreshed_nodes_getD_of_marker g auth data.search_parameters name
  set nodes1 := (match g.nodes.findIdx?
      (fun n : GraphNode => n.id = "researcher-" ++ name) with
    | some i => g.nodes.set i
        (refreshResearcherNode (g.nodes.getD i dummyNode) auth
          data.search_parameters)
    | none => g.nodes) with hn1def
  have hph : placeholderIndicesOf nodes1 ("placeholder-" ++ name ++ "-")
      = placeholderIndicesOf g.nodes ("placeholder-" ++ name ++ "-") :=
    phIdx_congr_ids _ _ _ hids
  simp only [updatePipeline, hph]
  set marker := "placeholder-" ++ name ++ "-" with hmarkerdef
  set phIdx := placeholderIndicesOf g.nodes marker with hphdef
  set papers := arts.take phIdx.length with hpapersdef
  set pairs := papers.zip phIdx with hpairsdef
  set rem := (phIdx.drop papers.length).mergeSort (fun a b => decide (b ≤ a))
    with hremdef
  have hklt : k < phIdx.length := by omega
  have hka : k < arts.length := by omega
  have hkm : k < papers.length := by
    rw [hpapersdef, List.length_take]
    omega
  have hkp : k < pairs.length := by
    rw [hpairsdef, List.length_zip]
    omega
  have hi_eq : phIdx.getD k 0 = phIdx[k] := List.getD_eq_getElem _ _ hklt
  have hphnodes1 : ∀ i ∈ phIdx, i < nodes1.length
      ∧ jsStartsWith (nodes1.getD i dummyNode).id marker = true := by
    intro i hi
    rw [← hph] at hi
    exact (phIdx_mem_iff _ _ _).mp hi
  have hM : pairs.map Prod.snd = phIdx.take papers.length := by
    rw [hpairsdef, zip_map_snd_take]
  have hMnodup : (pairs.map Prod.snd).Nodup := by
    rw [hM]
    exact ((phIdx_pairwise g.nodes marker).take.imp ne_of_lt)
  have hpair : pairs[k] = (papers[k], phIdx[k]) := List.getElem_zip
  have hpapk : papers[k] = arts.getD k dummyArticle := by
    rw [List.getD_eq_getElem arts dummyArticle hka]
    exact List.getElem_take arts
  have hmkg : ∀ j ∈ phIdx, jsStartsWith (g.nodes.getD j dummyNode).id marker
      = true := by
    intro j hj
    exact ((phIdx_mem_iff g.nodes marker j).mp hj).2
  have hidg : ∀ j ∈ phIdx,
      (nodes1.getD j dummyNode).id = (g.nodes.getD j dummyNode).id := by
    intro j hj
    rw [hrefresh j (hmkg j hj)]
  have hmark1 : ∀ q ∈ pairs,
      jsStartsWith ((nodes1.getD q.2 dummyNode).id) marker = true := by
    intro q hq
    exact (hphnodes1 q.2 (List.of_mem_zip hq).2).2
  have hnewmk : jsStartsWith (paperIdOf (arts.getD k dummyArticle)) marker
      = false := by
    rw [show paperIdOf (arts.getD k dummyArticle)
        = "paper-" ++ paperKey (arts.getD k dummyArticle) from rfl,
      hmarkerdef, String.append_assoc]
    exact paper_id_not_marker _ _
  have holdmk : jsStartsWith (g.nodes.getD (phIdx.getD k 0) dummyNode).id marker
      = true := by
    rw [hi_eq]
    exact hmkg _ (List.getElem_mem hklt)
  have hchain_hit : strRewriteChain nodes1 pairs
      ((g.nodes.getD (phIdx.getD k 0) dummyNode).id)
      = paperIdOf (arts.getD k dummyArticle) := by
    have hfst : (pairs[k]).1 = arts.getD k dummyArticle := by
      simp only [hpair]
      exact hpapk
    have hsplit : pairs = pairs.take k ++ pairs[k] :: pairs.drop (k + 1) := by
      rw [← List.drop_eq_getElem_cons hkp, List.take_append_drop]
    rw [← hfst]
    conv_lhs => rw [hsplit]
    refine strRewriteChain_hit nodes1 (pairs.take k) (pairs.drop (k + 1))
      (pairs[k]) _ ?_ ?_ ?_
    · simp only [hpair]
      rw [hi_eq, hidg (phIdx[k]) (List.getElem_mem hklt)]
    · intro q hq
      obtain ⟨t, ht, hqt⟩ := List.mem_iff_getElem.mp hq
      have htk : t < k := by
        rw [List.length_take] at ht
        omega
      have htpap : t < papers.length := by omega
      have htph : t < phIdx.length := by omega
      have htp : t < pairs.length := by omega
      have hq2 : q.2 = phIdx[t] := by
        rw [← hqt]
        have h3 : (pairs.take k)[t] = pairs[t] := List.getElem_take pairs
        have h4 : pairs[t] = (papers[t], phIdx[t]) := List.getElem_zip
        rw [h3]
        simp only [h4]
      have hlt2 : phIdx[t] < phIdx[k] :=
        List.pairwise_iff_getElem.mp (phIdx_pairwise g.nodes marker) t k htph hklt
          htk
      rw [hq2, hi_eq, hidg (phIdx[t]) (List.getElem_mem htph)]
      exact hdistinct (phIdx[k]) (List.getElem_mem hklt) (phIdx[t])
        (List.getElem_mem htph) (by omega)
    · intro q hq
      have hq' : q ∈ pairs := (List.drop_sublist _ _).subset hq
      rw [hfst]
      exact (ne_of_marker_mismatch (hmark1 q hq') hnewmk).symm
  have hchain_miss : ∀ s : String, jsStartsWith s marker = false →
      strRewriteChain nodes1 pairs s = s := by
    intro s hs
    refine strRewriteChain_miss pairs nodes1 s ?_
    intro q hq
    exact (ne_of_marker_mismatch (hmark1 q hq) hs).symm
  have hS : strRewriteChain nodes1 pairs l.source
      = (if l.source = (g.nodes.getD (phIdx.getD k 0) dummyNode).id
          then paperIdOf (arts.getD k dummyArticle) else l.source) := by
    rcases hsrc with hs | hs
    · rw [if_pos hs, hs, hchain_hit]
    · have hne : l.source ≠ (g.nodes.getD (phIdx.getD k 0) dummyNode).id := by
        intro heq
        rw [← heq, hs] at holdmk
        cases holdmk
      rw [if_neg hne, hchain_miss _ hs]
  have hT : strRewriteChain nodes1 pairs l.target
      = (if l.target = (g.nodes.getD (phIdx.getD k 0) dummyNode).id
          then paperIdOf (arts.getD k dummyArticle) else l.target) := by
    rcases htgt with hs | hs
    · rw [if_pos hs, hs, hchain_hit]
    · have hne : l.target ≠ (g.nodes.getD (phIdx.getD k 0) dummyNode).id := by
        intro heq
        rw [← heq, hs] at holdmk
        cases holdmk
      rw [if_neg hne, hchain_miss _ hs]
  have hlink : rewriteChain nodes1 pairs l
      = rewriteLink ((g.nodes.getD (phIdx.getD k 0) dummyNode).id)
          (paperIdOf (arts.getD k dummyArticle)) l := by
    rw [rewriteChain_eq_str, hS, hT]
    rfl
  have hmem2 : rewriteLink ((g.nodes.getD (phIdx.getD k 0) dummyNode).id)
      (paperIdOf (arts.getD k dummyArticle)) l
      ∈ (updReplacePass nodes1 g.links pairs).2 := by
    rw [updReplacePass_links_eq pairs nodes1 g.links hMnodup, ← hlink]
    exact List.mem_map_of_mem _ hl
  have hdropnodup : (phIdx.drop papers.length).Nodup :=
    (List.drop_sublist _ _).nodup ((phIdx_pairwise g.nodes marker).imp ne_of_lt)
  have hdesc : rem.Pairwise (· > ·) := mergeSortDesc_pairwise _ hdropnodup
  have hrem_mem : ∀ i, i ∈ rem ↔ i ∈ phIdx.drop papers.length := fun i =>
    (List.mergeSort_perm _ _).mem_iff
  have hrem_phIdx : ∀ i ∈ rem, i ∈ phIdx := fun i hi =>
    List.mem_of_mem_drop ((hrem_mem i).mp hi)
  have hrem_not_M : ∀ i ∈ rem, i ∉ pairs.map Prod.snd := by
    intro i hi hiM
    rw [hM] at hiM
    exact List.disjoint_take_drop
      ((phIdx_pairwise g.nodes marker).imp ne_of_lt) le_rfl hiM
      ((hrem_mem i).mp hi)
  have hremvalid : ∀ i ∈ rem, i < (updReplacePass nodes1 g.links pairs).1.length := by
    intro i hi
    rw [updReplacePass_length pairs nodes1 g.links]
    exact (hphnodes1 i (hrem_phIdx i hi)).1
  refine updRemovePass_links_keep rem _ _ _ hremvalid hdesc hmem2 ?_
  intro r hr
  have hrmk : jsStartsWith
      (((updReplacePass nodes1 g.links pairs).1.getD r dummyNode).id) marker
      = true := by
    rw [updReplacePass_untouched pairs nodes1 g.links r (hrem_not_M r hr)]
    exact (hphnodes1 r (hrem_phIdx r hr)).2
  have hsrcmk : jsStartsWith
      (rewriteLink ((g.nodes.getD (phIdx.getD k 0) dummyNode).id)
        (paperIdOf (arts.getD k dummyArticle)) l).source marker = false := by
    show jsStartsWith
      (if l.source = (g.nodes.getD (phIdx.getD k 0) dummyNode).id
        then paperIdOf (arts.getD k dummyArticle) else l.source) marker = false
    by_cases hc : l.source = (g.nodes.getD (phIdx.getD k 0) dummyNode).id
    · rw [if_pos hc]
      exact hnewmk
    · rw [if_neg hc]
      rcases hsrc with hs | hs
      · exact absurd hs hc
      · exact hs
  have htgtmk : jsStartsWith
      (rewriteLink ((g.nodes.getD (phIdx.getD k 0) dummyNode).id)
        (paperIdOf (arts.getD k dummyArticle)) l).target marker = false := by
    show jsStartsWith
      (if l.target = (g.nodes.getD (phIdx.getD k 0) dummyNode).id
        then paperIdOf (arts.getD k dummyArticle) else l.target) marker = false
    by_cases hc : l.target = (g.nodes.getD (phIdx.getD k 0) dummyNode).id
    · rw [if_pos hc]
      exact hnewmk
    · rw [if_neg hc]
      rcases htgt with hs | hs
      · exact absurd hs hc
      · exact hs
  exact ⟨(ne_of_marker_mismatch hrmk hsrcmk).symm,
    (ne_of_marker_mismatch hrmk htgtmk).symm⟩

/-- C4 witness: on the two-placeholder fixture, the researcher-to-placeholder
link reappears with its target rewritten to the new paper id. -/
theorem c4_link_id_rewrite_witness :
    (0 < min phArts.length
      (placeholderIndicesOf phGraph.nodes ("placeholder-" ++ "X" ++ "-")).length)
  ∧ rewriteLink
      (phGraph.nodes.getD
        ((placeholderIndicesOf phGraph.nodes ("placeholder-" ++ "X" ++ "-")).getD 0 0)
        dummyNode).id
      (paperIdOf (phArts.getD 0 dummyArticle))
      { source := "researcher-X", target := "placeholder-X-0", type := .authored }
    ∈ phResult.links := by
  refine ⟨by decide, ?_⟩
  exact c4_link_id_rewrite phGraph phData "X" { name := "X" } phArts phResult 0
    { source := "researcher-X", target := "placeholder-X-0", type := .authored }
    rfl rfl (by decide) (by decide) (by decide)
    (List.mem_cons_self _ _)
    (Or.inr (by decide)) (Or.inl (by decide)) (by rfl)

/-- C3, witness: on the two-placeholder fixture, the first placeholder's slot
holds the real paper node built from the first article, with the
placeholder's coordinates and layout metadata carried over. -/
theorem c3_position_inheritance_witness :
    (0 < min phArts.length
      (placeholderIndicesOf phGraph.nodes ("placeholder-" ++ "X" ++ "-")).length)
  ∧ phResult.nodes.getD
        ((placeholderIndicesOf phGraph.nodes ("placeholder-" ++ "X" ++ "-")).getD 0 0)
        dummyNode
      = realPaperNode (phArts.getD 0 dummyArticle)
          (phGraph.nodes.getD
            ((placeholderIndicesOf phGraph.nodes
              ("placeholder-" ++ "X" ++ "-")).getD 0 0)
            dummyNode)
  ∧ (phResult.nodes.getD
        ((placeholderIndicesOf phGraph.nodes ("placeholder-" ++ "X" ++ "-")).getD 0 0)
        dummyNode).x
      = (phGraph.nodes.getD
          ((placeholderIndicesOf phGraph.nodes
            ("placeholder-" ++ "X" ++ "-")).getD 0 0)
          dummyNode).x
  ∧ (phResult.nodes.getD
        ((placeholderIndicesOf phGraph.nodes ("placeholder-" ++ "X" ++ "-")).getD 0 0)
        dummyNode).y
      = (phGraph.nodes.getD
          ((placeholderIndicesOf phGraph.nodes
            ("placeholder-" ++ "X" ++ "-")).getD 0 0)
          dummyNode).y
  ∧ (phResult.nodes.getD
        ((placeholderIndicesOf phGraph.nodes ("placeholder-" ++ "X" ++ "-")).getD 0 0)
        dummyNode).metadata.bind Metadata.layoutDistance
      = (phGraph.nodes.getD
          ((placeholderIndicesOf phGraph.nodes
            ("placeholder-" ++ "X" ++ "-")).getD 0 0)
          dummyNode).metadata.bind Metadata.layoutDistance
  ∧ (phResult.nodes.getD
        ((placeholderIndicesOf phGraph.nodes ("placeholder-" ++ "X" ++ "-")).getD 0 0)
        dummyNode).metadata.bind Metadata.initialAngle
      = (phGraph.nodes.getD
          ((placeholderIndicesOf phGraph.nodes
            ("placeholder-" ++ "X" ++ "-")).getD 0 0)
          dummyNode).metadata.bind Metadata.initialAngle := by
  have h := c3_position_inheritance phGraph phData "X" { name := "X" } phArts
    phResult 0 rfl rfl (by decide) (by decide) (by rfl)
  exact ⟨by decide, h.1, h.2.1, h.2.2.1, h.2.2.2.1, h.2.2.2.2⟩

/-- C2, witness: on the two-placeholder fixture with a one-article payload,
the update leaves no `placeholder-X-` node, keeps `3 - (2 - 1) = 2` nodes,
produces exactly one payload-derived paper node, and drops the surplus
placeholder's link. -/
theorem c2_placeholder_accounting_witness :
    ("X" ≠ "" ∧ ∀ a ∈ phArts, paperIdOf a ∉ idsOf phGraph)
  ∧ (∀ n ∈ phResult.nodes, jsStartsWith n.id ("placeholder-" ++ "X" ++ "-") = false)
  ∧ phResult.nodes.length = phGraph.nodes.length
      - ((placeholderIndicesOf phGraph.nodes ("placeholder-" ++ "X" ++ "-")).length
          - min phArts.length
              (placeholderIndicesOf phGraph.nodes
                ("placeholder-" ++ "X" ++ "-")).length)
  ∧ phResult.nodes.countP (fun n => decide (∃ a ∈ phArts, n.id = paperIdOf a))
      = min phArts.length
          (placeholderIndicesOf phGraph.nodes ("placeholder-" ++ "X" ++ "-")).length
  ∧ (∀ l ∈ phResult.links,
      ∀ i ∈ (placeholderIndicesOf phGraph.nodes ("placeholder-" ++ "X" ++ "-")).drop
          (min phArts.length
            (placeholderIndicesOf phGraph.nodes
              ("placeholder-" ++ "X" ++ "-")).length),
        l.source ≠ (phGraph.nodes.getD i dummyNode).id
          ∧ l.target ≠ (phGraph.nodes.getD i dummyNode).id) := by
  have h := c2_placeholder_accounting phGraph phData "X" { name := "X" } phArts
    phResult rfl rfl (by decide) (by decide) (by rfl)
  exact ⟨⟨by decide, by decide⟩, h.1, h.2.1, h.2.2.1, h.2.2.2⟩

end Scholar
